import Mathlib

/-!
# Verification of the planehq reconciliation core

Shallow embedding of the two algorithmic subsystems of the repository:

* the matching engine (`normalizeText`, `extractKeywords`, `keywordOverlapScore`,
  `findMatches`, `getBestMatch`, `autoMatchAllTasks`) from the task-matcher module, and
* the change-detection engine (`fetchCommentCountsBatched`, the `detectChanges` GET
  handler and the `takeSnapshot` POST handler) from the changes route.

JavaScript numbers are modelled as exact rationals (`ℚ`), JS `Date` values as
`Option ℤ` (milliseconds; `none` for a missing/falsy timestamp), JS `Map`s as
association lists with last-write-wins lookup, and the Prisma snapshot store as a
function `String → Option TaskSnapshot`.  Remote comment listings are modelled by a
`World` containing `String → Option Nat` fetchers where `none` means the request
throws (the code catches that and records a count of 0).
-/

namespace PlaneHq

/-! ## Text normalizer / keyword extractor (task-matcher module) -/

/-- JS `\w` character class: letters, digits, underscore. -/
def isWordChar (c : Char) : Bool := c.isAlphanum || c == '_'

/-- Words of `normalizeText`: the source lowercases, replaces every
`[^\w\s]` character by a space, collapses `\s+` runs and trims; hence the words of
the result are exactly the maximal runs of (lowercased) word characters. -/
def normWords (text : String) : List String :=
  ((((text.toList.map Char.toLower).splitOnP (fun c => !(isWordChar c))).filter
      (fun w => w ≠ [])).map (fun w => String.mk w))

/-- `normalizeText` from the task-matcher module: lowercase, punctuation collapsed
to single spaces, whitespace-trimmed. -/
def normalizeText (text : String) : String :=
  String.intercalate " " (normWords text)

/-- The stop-word list of `extractKeywords`, verbatim from the source. -/
def stopWords : List String :=
  ["the", "and", "for", "with", "this", "that", "from", "have", "been",
   "will", "would", "could", "should", "about", "into", "through", "during",
   "before", "after", "above", "below", "between", "under", "again", "further",
   "then", "once", "here", "there", "when", "where", "what", "which", "while",
   "update", "create", "add", "remove", "delete", "change", "make", "need",
   "task", "issue", "item", "work", "project"]

/-- `extractKeywords`: words of the normalized text longer than 3 characters and not
stop words.  The JS `Set` is modelled by `dedup` (first occurrence kept); only
membership and cardinality of the result are ever used. -/
def extractKeywords (text : String) : List String :=
  ((normWords text).filter (fun w => decide (3 < w.length) && !(stopWords.contains w))).dedup

/-- `keywordOverlapScore`: Jaccard similarity of the two keyword sets
(`overlap / union`), 0 when either set is empty. -/
def keywordOverlapScore (text1 text2 : String) : ℚ :=
  let keywords1 := extractKeywords text1
  let keywords2 := extractKeywords text2
  if keywords1.length = 0 ∨ keywords2.length = 0 then 0
  else
    let overlap := (keywords1.filter (fun kw => keywords2.contains kw)).length
    let union := ((keywords1 ++ keywords2).dedup).length
    (overlap : ℚ) / (union : ℚ)

/-! ## Candidate scorer (`findMatches`) -/

/-- `matchMethod` values of a candidate. -/
inductive MatchMethod where
  | exact
  | fuzzy
  | description
deriving DecidableEq, Repr

structure MatchCandidate where
  gid : String
  name : String
  confidence : ℚ
  matchMethod : MatchMethod
  matchReason : Option String
deriving DecidableEq, Repr

structure MatchableTask where
  gid : String
  name : String
  description : Option String
deriving DecidableEq, Repr

/-- `b.isPrefixOf`-style check on char lists (needle starts the haystack). -/
def startsWithList : List Char → List Char → Bool
  | [], _ => true
  | _ :: _, [] => false
  | a :: ns, b :: hs => a == b && startsWithList ns hs

/-- Substring occurrence check on char lists. -/
def hasSubList (needle : List Char) : List Char → Bool
  | [] => needle.isEmpty
  | h :: t => startsWithList needle (h :: t) || hasSubList needle t

/-- JS `a.includes(b)` on strings. -/
def strIncludes (a b : String) : Bool := hasSubList b.toList a.toList

/-- JS `Math.round` (round half towards positive infinity). -/
def mathRound (q : ℚ) : ℤ := ⌊q + 1/2⌋

/-- JS truthiness of an optional string (`null` and `""` are falsy). -/
def strTruthy : Option String → Bool
  | some s => !(s == "")
  | none => false

/-- Stages 3 and 4 of the per-target loop body of `findMatches` (keyword overlap in
names, then description matching).  Reached either directly or by fall-through from
the containment stage when the length ratio is not above 0.5. -/
def scoreTargetKeywordStage (sourceName : String) (sourceDescription : Option String)
    (target : MatchableTask) : Option MatchCandidate :=
  let nameKeywordScore := keywordOverlapScore sourceName target.name
  if (0.4 : ℚ) ≤ nameKeywordScore then
    some { gid := target.gid, name := target.name,
           confidence := min (0.9 : ℚ) (nameKeywordScore + 0.3),
           matchMethod := .fuzzy,
           matchReason := some (toString (mathRound (nameKeywordScore * 100)) ++ "% keyword match in name") }
  else if strTruthy sourceDescription && strTruthy target.description then
    let sd := sourceDescription.getD ""
    let td := target.description.getD ""
    let descKeywordScore := keywordOverlapScore sd td
    if (0.3 : ℚ) ≤ descKeywordScore then
      some { gid := target.gid, name := target.name,
             confidence := min (0.8 : ℚ) (descKeywordScore + 0.2),
             matchMethod := .description,
             matchReason := some (toString (mathRound (descKeywordScore * 100)) ++ "% description similarity") }
    else
      let sourceNameInDesc := keywordOverlapScore sourceName td
      let targetNameInSourceDesc := keywordOverlapScore target.name sd
      let crossScore := max sourceNameInDesc targetNameInSourceDesc
      if (0.3 : ℚ) ≤ crossScore then
        some { gid := target.gid, name := target.name,
               confidence := min (0.75 : ℚ) (crossScore + 0.15),
               matchMethod := .description,
               matchReason := some "Name found in description" }
      else none
  else none

/-- One iteration of the per-target loop of `findMatches`: each stage either pushes
one candidate and continues to the next target, or falls through to the next stage. -/
def scoreTarget (sourceName : String) (sourceDescription : Option String)
    (target : MatchableTask) : Option MatchCandidate :=
  let normalizedSource := normalizeText sourceName
  let normalizedTarget := normalizeText target.name
  -- Stage 1: exact match (case-insensitive, normalized)
  if normalizedSource == normalizedTarget then
    some { gid := target.gid, name := target.name, confidence := 1,
           matchMethod := .exact, matchReason := some "Exact name match" }
  -- Stage 2: one contains the other (falls through when the ratio is ≤ 0.5)
  else if strIncludes normalizedSource normalizedTarget
       || strIncludes normalizedTarget normalizedSource then
    let shorter := min normalizedSource.length normalizedTarget.length
    let longer := max normalizedSource.length normalizedTarget.length
    let containmentScore := (shorter : ℚ) / (longer : ℚ)
    if (0.5 : ℚ) < containmentScore then
      some { gid := target.gid, name := target.name,
             confidence := 0.85 * containmentScore + 0.15,
             matchMethod := .fuzzy, matchReason := some "Name contains match" }
    else scoreTargetKeywordStage sourceName sourceDescription target
  else scoreTargetKeywordStage sourceName sourceDescription target

/-- The descending-by-key relation used to model the stable JS
`sort((a, b) => b.confidence - a.confidence)`. -/
def keyDesc (key : α → ℚ) (a b : α) : Prop := key b ≤ key a

instance (key : α → ℚ) : DecidableRel (keyDesc key) :=
  fun a b => inferInstanceAs (Decidable (key b ≤ key a))

instance (key : α → ℚ) : IsTotal α (keyDesc key) := ⟨fun a b => le_total (key b) (key a)⟩

instance (key : α → ℚ) : IsTrans α (keyDesc key) := ⟨fun _ _ _ h1 h2 => le_trans h2 h1⟩

/-- Stable descending sort by a rational key (insertion sort is stable, like the JS
engine's `Array.prototype.sort`). -/
def sortByKeyDesc (key : α → ℚ) (l : List α) : List α :=
  List.insertionSort (keyDesc key) l

/-- `findMatches`: score every target, keep candidates at or above the threshold,
sort by descending confidence, truncate to 5. -/
def findMatches (sourceName : String) (targetTasks : List MatchableTask)
    (threshold : ℚ) (sourceDescription : Option String) : List MatchCandidate :=
  (sortByKeyDesc (fun c => c.confidence)
      ((targetTasks.filterMap (scoreTarget sourceName sourceDescription)).filter
        (fun c => threshold ≤ c.confidence))).take 5

/-! ## Greedy assignment engine (`autoMatchAllTasks`)

The Fuse.js fallback scorer (`fuzzySearch`) is a third-party library; it is modelled
as an arbitrary function parameter `fz`, about which the theorems assume only what
the JS code guarantees structurally: every returned candidate's `gid` is the `gid`
of one of the searched tasks (`FuzzySound`). -/

/-- Every candidate produced by the fallback scorer refers to one of the searched
tasks.  This is forced by the Fuse.js call shape (`results.map (r => r.item...)`). -/
def FuzzySound (fz : String → List MatchableTask → ℚ → List MatchCandidate) : Prop :=
  ∀ q ts th, ∀ c ∈ fz q ts th, ∃ t ∈ ts, c.gid = t.gid

/-- The trivial fallback scorer (returns no candidates); used for concrete runs. -/
def fzNone : String → List MatchableTask → ℚ → List MatchCandidate := fun _ _ _ => []

/-- First element of a candidate list when its confidence clears the threshold
(the `matches.length > 0 && matches[0].confidence >= minConfidence` pattern). -/
def bestAbove (l : List MatchCandidate) (minConfidence : ℚ) : Option MatchCandidate :=
  match l with
  | c :: _ => if minConfidence ≤ c.confidence then some c else none
  | [] => none

/-- `getBestMatch`: rule-based scorer first, Fuse.js fallback otherwise. -/
def getBestMatch (fz : String → List MatchableTask → ℚ → List MatchCandidate)
    (sourceName : String) (targetTasks : List MatchableTask) (minConfidence : ℚ)
    (sourceDescription : Option String) : Option MatchCandidate :=
  match bestAbove (findMatches sourceName targetTasks minConfidence sourceDescription)
      minConfidence with
  | some c => some c
  | none => bestAbove (fz sourceName targetTasks minConfidence) minConfidence

structure PlaneTaskIn where
  id : String
  name : String
  description : Option String
deriving DecidableEq, Repr

structure AsanaTaskIn where
  gid : String
  name : String
  notes : Option String
deriving DecidableEq, Repr

structure SuggestedMatch where
  planeTaskId : String
  planeTaskName : String
  asanaTaskGid : String
  asanaTaskName : String
  confidence : ℚ
  matchMethod : MatchMethod
  matchReason : String
deriving DecidableEq, Repr

/-- JS `x || d` on an optional string (`null` and `""` both give the default). -/
def strOrElse (s : Option String) (d : String) : String :=
  match s with
  | some r => if r == "" then d else r
  | none => d

/-- The main loop of `autoMatchAllTasks` over the Plane task list, carrying the
`usedAsanaGids` set. -/
def autoMatchLoop (fz : String → List MatchableTask → ℚ → List MatchCandidate) :
    List PlaneTaskIn → List MatchableTask → List String → List String → ℚ →
    List SuggestedMatch
  | [], _, _, _, _ => []
  | planeTask :: rest, matchable, alreadyLinkedPlaneIds, usedAsanaGids, minConfidence =>
    if alreadyLinkedPlaneIds.contains planeTask.id then
      autoMatchLoop fz rest matchable alreadyLinkedPlaneIds usedAsanaGids minConfidence
    else
      let availableTasks := matchable.filter (fun t => !(usedAsanaGids.contains t.gid))
      if availableTasks.isEmpty then
        autoMatchLoop fz rest matchable alreadyLinkedPlaneIds usedAsanaGids minConfidence
      else
        match getBestMatch fz planeTask.name availableTasks minConfidence
            planeTask.description with
        | some bestMatch =>
          { planeTaskId := planeTask.id, planeTaskName := planeTask.name,
            asanaTaskGid := bestMatch.gid, asanaTaskName := bestMatch.name,
            confidence := bestMatch.confidence, matchMethod := bestMatch.matchMethod,
            matchReason := strOrElse bestMatch.matchReason "Match found" } ::
          autoMatchLoop fz rest matchable alreadyLinkedPlaneIds
            (bestMatch.gid :: usedAsanaGids) minConfidence
        | none =>
          autoMatchLoop fz rest matchable alreadyLinkedPlaneIds usedAsanaGids minConfidence

/-- `autoMatchAllTasks`: greedy one-to-one assignment, output sorted by descending
confidence. -/
def autoMatchAllTasks (fz : String → List MatchableTask → ℚ → List MatchCandidate)
    (planeTasks : List PlaneTaskIn) (asanaTasks : List AsanaTaskIn)
    (alreadyLinkedPlaneIds alreadyLinkedAsanaGids : List String)
    (minConfidence : ℚ) : List SuggestedMatch :=
  let matchableAsanaTasks : List MatchableTask :=
    (asanaTasks.filter (fun t => !(alreadyLinkedAsanaGids.contains t.gid))).map
      (fun t => { gid := t.gid, name := t.name, description := t.notes })
  sortByKeyDesc (fun s => s.confidence)
    (autoMatchLoop fz planeTasks matchableAsanaTasks alreadyLinkedPlaneIds
      alreadyLinkedAsanaGids minConfidence)

/-! ## Secondary-field fetcher (`fetchCommentCountsBatched`)

The changes route batches per-task comment fetches.  The remote systems are
modelled by a `World`; `planeComments`/`asanaComments` return `none` when the
request throws (the source catches that and records a count of `0`). -/

/-- The `(planeIssueId, asanaTaskGid)` projection of a task mapping that the route
passes to the batch fetcher. -/
structure CPair where
  planeIssueId : Option String
  asanaTaskGid : Option String
deriving DecidableEq, Repr

/-- The `onlyModified` argument of `fetchCommentCountsBatched`. -/
structure FetchFilter where
  planeIds : List String
  asanaIds : List String

/-- The `!onlyModified || onlyModified.planeIds.has(p)` test. -/
def planeFetchOk (onlyModified : Option FetchFilter) (p : String) : Bool :=
  match onlyModified with
  | none => true
  | some f => f.planeIds.contains p

/-- The `!onlyModified || onlyModified.asanaIds.has(g)` test. -/
def asanaFetchOk (onlyModified : Option FetchFilter) (g : String) : Bool :=
  match onlyModified with
  | none => true
  | some f => f.asanaIds.contains g

/-- The `tasksToFetch` pre-filter: when a filter is given, keep a pair when either
side is in the corresponding id set. -/
def tasksToFetch (onlyModified : Option FetchFilter) (tasks : List CPair) : List CPair :=
  match onlyModified with
  | none => tasks
  | some f => tasks.filter (fun t =>
      (match t.planeIssueId with | some p => f.planeIds.contains p | none => false)
      || (match t.asanaTaskGid with | some g => f.asanaIds.contains g | none => false))

structure PlaneIssue where
  id : String
  name : String
  descriptionStripped : Option String
  stateName : Option String
  updatedAt : Option ℤ
deriving DecidableEq, Repr

structure AsanaTask where
  gid : String
  name : String
  notes : Option String
  completed : Bool
  modifiedAt : Option ℤ
deriving DecidableEq, Repr

/-- The remote systems as seen during one reconciliation pass: the two bulk
listings plus the per-record comment endpoints (`none` models a request that
throws; the code catches it). -/
structure World where
  planeIssues : List PlaneIssue
  asanaTasks : List AsanaTask
  planeComments : String → Option ℕ
  asanaComments : String → Option ℕ

/-- The entries written into the `planeComments` map of
`fetchCommentCountsBatched`, in write order: one entry per eligible pair with a
Plane id, value the live count (`0` on a caught failure). -/
def fetchPlaneEntries (w : World) (onlyModified : Option FetchFilter)
    (tasks : List CPair) : List (String × ℕ) :=
  (tasksToFetch onlyModified tasks).filterMap (fun t =>
    match t.planeIssueId with
    | some p => if planeFetchOk onlyModified p then some (p, (w.planeComments p).getD 0)
                else none
    | none => none)

/-- Entries written into the `asanaComments` map, in write order. -/
def fetchAsanaEntries (w : World) (onlyModified : Option FetchFilter)
    (tasks : List CPair) : List (String × ℕ) :=
  (tasksToFetch onlyModified tasks).filterMap (fun t =>
    match t.asanaTaskGid with
    | some g => if asanaFetchOk onlyModified g then some (g, (w.asanaComments g).getD 0)
                else none
    | none => none)

/-- JS `Map.get` after a sequence of `Map.set`s: the last write wins. -/
def mapGet (entries : List (String × ℕ)) (k : String) : Option ℕ :=
  (entries.reverse.find? (fun e => e.1 == k)).map (fun e => e.2)

/-- The result maps of `fetchCommentCountsBatched` (its batching affects timing
only, not the produced maps; the batch trace is modelled separately below). -/
def fetchCommentCountsBatched (w : World) (onlyModified : Option FetchFilter)
    (tasks : List CPair) : (String → Option ℕ) × (String → Option ℕ) :=
  (mapGet (fetchPlaneEntries w onlyModified tasks),
   mapGet (fetchAsanaEntries w onlyModified tasks))

/-! ### Batch/delay trace of the fetcher -/

/-- One remote request issued by the fetcher. -/
inductive FetchReq where
  | planeReq (issueId : String)
  | asanaReq (gid : String)
deriving DecidableEq, Repr

/-- The requests started for one task of a batch (`batch.flatMap` body: up to one
per remote system). -/
def taskRequests (onlyModified : Option FetchFilter) (t : CPair) : List FetchReq :=
  (match t.planeIssueId with
   | some p => if planeFetchOk onlyModified p then [FetchReq.planeReq p] else []
   | none => [])
  ++ (match t.asanaTaskGid with
      | some g => if asanaFetchOk onlyModified g then [FetchReq.asanaReq g] else []
      | none => [])

/-- `tasksToFetch.slice(i, i + BATCH_SIZE)` for `i = 0, 3, 6, …`. -/
def chunksOf3 : List α → List (List α)
  | [] => []
  | [a] => [[a]]
  | [a, b] => [[a, b]]
  | a :: b :: c :: rest => [a, b, c] :: chunksOf3 rest

/-- The concurrent request groups of one fetcher call, in execution order. -/
def fetchBatches (onlyModified : Option FetchFilter) (tasks : List CPair) :
    List (List FetchReq) :=
  (chunksOf3 (tasksToFetch onlyModified tasks)).map
    (fun b => b.flatMap (taskRequests onlyModified))

/-- An event of the fetcher's execution trace. -/
inductive SchedEvent where
  | batch (reqs : List FetchReq)
  | delayMs (ms : ℕ)
deriving DecidableEq, Repr

/-- `await Promise.all(batch)` then `await delay(1500)` when more tasks remain
(`i + BATCH_SIZE < tasksToFetch.length`). -/
def scheduleOf : List (List FetchReq) → List SchedEvent
  | [] => []
  | [b] => [SchedEvent.batch b]
  | b :: b2 :: rest => SchedEvent.batch b :: SchedEvent.delayMs 1500 :: scheduleOf (b2 :: rest)

/-- The execution trace of one `fetchCommentCountsBatched` call. -/
def fetchSchedule (onlyModified : Option FetchFilter) (tasks : List CPair) :
    List SchedEvent :=
  scheduleOf (fetchBatches onlyModified tasks)

/-! ## Change-detection engine (changes route: GET `detectChanges`,
POST `takeSnapshot`) -/

/-- A `TaskMapping` row as used by the changes route (the `snapshot` relation is
modelled by the separate store function). -/
structure TaskMapping where
  id : String
  planeIssueId : Option String
  asanaTaskGid : Option String
deriving DecidableEq, Repr

/-- A `TaskSnapshot` row.  Per the migration, the comment counts are
`INTEGER NOT NULL` (so the source's `snapshot.asanaCommentsCount !== null` test is
always true), while the name/description/state/completed/timestamp columns are
nullable. -/
structure TaskSnapshot where
  planeName : Option String
  planeDescription : Option String
  planeState : Option String
  planeModifiedAt : Option ℤ
  planeCommentsCount : ℕ
  asanaName : Option String
  asanaDescription : Option String
  asanaCompleted : Option Bool
  asanaModifiedAt : Option ℤ
  asanaCommentsCount : ℕ
deriving DecidableEq, Repr

/-- The snapshot store (`prisma.taskSnapshot`, keyed by `taskMappingId`). -/
def SnapStore := String → Option TaskSnapshot

/-- A `Change` object of the detection pass. -/
structure Change where
  taskMappingId : String
  planeIssueId : Option String
  planeIssueName : Option String
  asanaTaskGid : Option String
  asanaTaskName : Option String
  field : String
  oldValue : Option String
  newValue : Option String
  source : String
  changedAt : Option ℤ
deriving DecidableEq, Repr

/-- The `planeIssueId: { not: null }, asanaTaskGid: { not: null }` query filter. -/
def isFullyLinked (tm : TaskMapping) : Bool :=
  tm.planeIssueId.isSome && tm.asanaTaskGid.isSome

def linkedMappings (mappings : List TaskMapping) : List TaskMapping :=
  mappings.filter isFullyLinked

/-- `new Map(planeIssues.map(i => [i.id, i]))` followed by `.get` (duplicate keys:
the later entry wins). -/
def planeIssueMap (w : World) (id : String) : Option PlaneIssue :=
  w.planeIssues.reverse.find? (fun i => i.id == id)

def asanaTaskMap (w : World) (gid : String) : Option AsanaTask :=
  w.asanaTasks.reverse.find? (fun t => t.gid == gid)

/-- JS `x || null` on an optional string (an empty string collapses to `null`). -/
def jsStrOrNull (o : Option String) : Option String :=
  match o with
  | some s => if s == "" then none else some s
  | none => none

/-- `planeIssue.updated_at && snapshot.planeModifiedAt ? new Date(...) > ... : true`. -/
def planeModifiedSinceSnapshot (pi : PlaneIssue) (s : TaskSnapshot) : Bool :=
  match pi.updatedAt, s.planeModifiedAt with
  | some u, some t => decide (t < u)
  | _, _ => true

/-- First pass of `detectChanges`: Plane ids whose live record was modified since
the snapshot (or whose timestamps are unusable, treated conservatively as
modified). -/
def modifiedPlaneIds (w : World) (store : SnapStore) (linked : List TaskMapping) :
    List String :=
  linked.filterMap (fun tm =>
    match tm.planeIssueId, tm.asanaTaskGid with
    | some p, some g =>
      match planeIssueMap w p, asanaTaskMap w g, store tm.id with
      | some pi, some _, some s =>
        if planeModifiedSinceSnapshot pi s then some p else none
      | _, _, _ => none
    | _, _ => none)

/-- First pass of `detectChanges`: Asana gids to always re-check, i.e. pairs with a
snapshot (the source also tests `snapshot.asanaCommentsCount !== null`, which the
NOT NULL schema makes vacuously true). -/
def asanaIdsToCheck (w : World) (store : SnapStore) (linked : List TaskMapping) :
    List String :=
  linked.filterMap (fun tm =>
    match tm.planeIssueId, tm.asanaTaskGid with
    | some p, some g =>
      match planeIssueMap w p, asanaTaskMap w g, store tm.id with
      | some _, some _, some _ => some g
      | _, _, _ => none
    | _, _ => none)

def toCPair (tm : TaskMapping) : CPair :=
  { planeIssueId := tm.planeIssueId, asanaTaskGid := tm.asanaTaskGid }

/-- The comment-count maps fetched by `detectChanges` (empty maps when neither id
set is non-empty). -/
def detectCounts (w : World) (store : SnapStore) (linked : List TaskMapping) :
    (String → Option ℕ) × (String → Option ℕ) :=
  let mp := modifiedPlaneIds w store linked
  let ac := asanaIdsToCheck w store linked
  if mp.isEmpty && ac.isEmpty then (fun _ => none, fun _ => none)
  else fetchCommentCountsBatched w (some { planeIds := mp, asanaIds := ac })
    (linked.map toCPair)

/-- `s.substring(0, 100)` plus an ellipsis marker when truncated. -/
def truncate100 (s : String) : String :=
  (s.take 100) ++ (if decide (100 < s.length) then "..." else "")

/-- The `createChange` helper of the detection loop. -/
def mkChange (tm : TaskMapping) (pi : PlaneIssue) (a : AsanaTask) (field : String)
    (oldValue newValue : Option String) (source : String) (changedAt : Option ℤ) :
    Change :=
  { taskMappingId := tm.id, planeIssueId := tm.planeIssueId,
    planeIssueName := some pi.name, asanaTaskGid := tm.asanaTaskGid,
    asanaTaskName := some a.name, field := field, oldValue := oldValue,
    newValue := newValue, source := source, changedAt := changedAt }

/-- Plane-side field comparisons for one snapshotted pair (`planeCnt` is the
fetched comment count for the pair's Plane id; `none` suppresses only the
comment-count comparison). -/
def pairPlaneChanges (tm : TaskMapping) (pi : PlaneIssue) (a : AsanaTask)
    (s : TaskSnapshot) (planeCnt : Option ℕ) : List Change :=
  (if s.planeName ≠ some pi.name then
    [mkChange tm pi a "name" s.planeName (some pi.name) "plane" pi.updatedAt]
  else [])
  ++ (let currentPlaneDesc := pi.descriptionStripped.getD ""
      let snapshotPlaneDesc := s.planeDescription.getD ""
      if snapshotPlaneDesc ≠ currentPlaneDesc then
        [mkChange tm pi a "description" (some (truncate100 snapshotPlaneDesc))
          (some (truncate100 currentPlaneDesc)) "plane" pi.updatedAt]
      else [])
  ++ (let currentState := jsStrOrNull pi.stateName
      if s.planeState ≠ currentState then
        [mkChange tm pi a "state" s.planeState currentState "plane" pi.updatedAt]
      else [])
  ++ (match planeCnt with
      | some c =>
        if s.planeCommentsCount ≠ c then
          [mkChange tm pi a "comments" (some (toString s.planeCommentsCount ++ " comments"))
            (some (toString c ++ " comments")) "plane" pi.updatedAt]
        else []
      | none => [])

/-- Asana-side field comparisons for one snapshotted pair. -/
def pairAsanaChanges (tm : TaskMapping) (pi : PlaneIssue) (a : AsanaTask)
    (s : TaskSnapshot) (asanaCnt : Option ℕ) : List Change :=
  (if s.asanaName ≠ some a.name then
    [mkChange tm pi a "name" s.asanaName (some a.name) "asana" a.modifiedAt]
  else [])
  ++ (let currentAsanaDesc := a.notes.getD ""
      let snapshotAsanaDesc := s.asanaDescription.getD ""
      if snapshotAsanaDesc ≠ currentAsanaDesc then
        [mkChange tm pi a "description" (some (truncate100 snapshotAsanaDesc))
          (some (truncate100 currentAsanaDesc)) "asana" a.modifiedAt]
      else [])
  ++ (if s.asanaCompleted ≠ some a.completed then
        [mkChange tm pi a "completed"
          (some (if s.asanaCompleted.getD false then "Completed" else "Open"))
          (some (if a.completed then "Completed" else "Open")) "asana" a.modifiedAt]
      else [])
  ++ (match asanaCnt with
      | some c =>
        if s.asanaCommentsCount ≠ c then
          [mkChange tm pi a "comments" (some (toString s.asanaCommentsCount ++ " comments"))
            (some (toString c ++ " comments")) "asana" a.modifiedAt]
        else []
      | none => [])

/-- The synthetic entry for a linked pair with no snapshot. -/
def newTaskChange (tm : TaskMapping) (pi : PlaneIssue) (a : AsanaTask) (now : ℤ) :
    Change :=
  mkChange tm pi a "new" none
    (some "New linked task - click Take Snapshot to start tracking") "plane" (some now)

/-- Plane-side output of the main detection loop for one mapping (skips
not-fully-linked mappings and pairs missing from a bulk listing). -/
def pairPlaneOut (w : World) (counts : (String → Option ℕ) × (String → Option ℕ))
    (now : ℤ) (store : SnapStore) (tm : TaskMapping) : List Change :=
  match tm.planeIssueId, tm.asanaTaskGid with
  | some p, some g =>
    match planeIssueMap w p, asanaTaskMap w g with
    | some pi, some a =>
      match store tm.id with
      | some s => pairPlaneChanges tm pi a s (counts.1 p)
      | none => [newTaskChange tm pi a now]
    | _, _ => []
  | _, _ => []

/-- Asana-side output of the main detection loop for one mapping. -/
def pairAsanaOut (w : World) (counts : (String → Option ℕ) × (String → Option ℕ))
    (store : SnapStore) (tm : TaskMapping) : List Change :=
  match tm.planeIssueId, tm.asanaTaskGid with
  | some p, some g =>
    match planeIssueMap w p, asanaTaskMap w g with
    | some pi, some a =>
      match store tm.id with
      | some s => pairAsanaChanges tm pi a s (counts.2 g)
      | none => []
    | _, _ => []
  | _, _ => []

/-- The snapshot value written by an upsert (both route handlers write the same
shape). -/
def mkSnapshot (pi : PlaneIssue) (a : AsanaTask)
    (planeCommentsCount asanaCommentsCount : ℕ) : TaskSnapshot :=
  { planeName := some pi.name,
    planeDescription := some (pi.descriptionStripped.getD ""),
    planeState := jsStrOrNull pi.stateName,
    planeModifiedAt := pi.updatedAt,
    planeCommentsCount := planeCommentsCount,
    asanaName := some a.name,
    asanaDescription := some (a.notes.getD ""),
    asanaCompleted := some a.completed,
    asanaModifiedAt := a.modifiedAt,
    asanaCommentsCount := asanaCommentsCount }

/-- One iteration of the snapshot-update loop of `detectChanges`: find the mapping
for a changed task id, recompute its snapshot from the live records, comment
fallbacks read from the snapshot as it was at the start of the pass (`store0`). -/
def upsertOne (w : World) (counts : (String → Option ℕ) × (String → Option ℕ))
    (store0 : SnapStore) (linked : List TaskMapping) (st : SnapStore)
    (taskId : String) : SnapStore :=
  match linked.find? (fun t => t.id == taskId) with
  | some tm =>
    match tm.planeIssueId, tm.asanaTaskGid with
    | some p, some g =>
      match planeIssueMap w p, asanaTaskMap w g with
      | some pi, some a =>
        let planeCommentsCount :=
          (counts.1 p).getD (((store0 tm.id).map (fun s => s.planeCommentsCount)).getD 0)
        let asanaCommentsCount :=
          (counts.2 g).getD (((store0 tm.id).map (fun s => s.asanaCommentsCount)).getD 0)
        fun k => if k == taskId then some (mkSnapshot pi a planeCommentsCount asanaCommentsCount)
                 else st k
      | _, _ => st
    | _, _ => st
  | none => st

/-- Result of one `detectChanges` run: the two reported change lists, the snapshot
store after the pass, and the rows appended to the persistent change log. -/
structure DetectResult where
  planeChanges : List Change
  asanaChanges : List Change
  store : SnapStore
  logged : List Change

/-- `allChanges` of one detection pass: the reported changes minus the synthetic
"new" entries (the rows handed to `changeLog.createMany`). -/
def detectAllChanges (w : World) (now : ℤ) (store : SnapStore)
    (linked : List TaskMapping) : List Change :=
  ((linked.flatMap (pairPlaneOut w (detectCounts w store linked) now store)) ++
    linked.flatMap (pairAsanaOut w (detectCounts w store linked) store)).filter
    (fun c => !(c.field == "new"))

/-- `changedTaskIds` of one detection pass (a JS `Set`, modelled as `dedup`). -/
def detectChangedIds (w : World) (now : ℤ) (store : SnapStore)
    (linked : List TaskMapping) : List String :=
  ((detectAllChanges w now store linked).map (fun c => c.taskMappingId)).dedup

/-- The GET `detectChanges` handler as a pure state transformer. -/
def detectChanges (w : World) (now : ℤ) (store : SnapStore)
    (mappings : List TaskMapping) : DetectResult :=
  let linked := linkedMappings mappings
  let counts := detectCounts w store linked
  let allChanges := detectAllChanges w now store linked
  let store1 := if allChanges.isEmpty then store
                else (detectChangedIds w now store linked).foldl
                  (upsertOne w counts store linked) store
  { planeChanges := linked.flatMap (pairPlaneOut w counts now store),
    asanaChanges := linked.flatMap (pairAsanaOut w counts store), store := store1,
    logged := allChanges }

/-- One iteration of the `takeSnapshot` upsert loop. -/
def takeSnapshotStep (w : World)
    (counts : (String → Option ℕ) × (String → Option ℕ)) (st : SnapStore)
    (tm : TaskMapping) : SnapStore :=
  match tm.planeIssueId, tm.asanaTaskGid with
  | some p, some g =>
    match planeIssueMap w p, asanaTaskMap w g with
    | some pi, some a =>
      fun k => if k == tm.id then
          some (mkSnapshot pi a ((counts.1 p).getD 0) ((counts.2 g).getD 0))
        else st k
    | _, _ => st
  | _, _ => st

/-- The POST `takeSnapshot` handler: fetch all comment counts (no filter), then
upsert a fresh snapshot for every fully-linked pair present in both listings. -/
def takeSnapshot (w : World) (store : SnapStore) (mappings : List TaskMapping) :
    SnapStore :=
  let linked := linkedMappings mappings
  let counts := fetchCommentCountsBatched w none (linked.map toCPair)
  linked.foldl (takeSnapshotStep w counts) store

/-- Point update of the plane-comment endpoint of a world (used to state that a
failure at one identifier does not affect any other identifier). -/
def setPlaneComments (w : World) (x : String) (v : Option ℕ) : World :=
  { w with planeComments := fun q => if q = x then v else w.planeComments q }

/-- Point update of the asana-comment endpoint of a world. -/
def setAsanaComments (w : World) (x : String) (v : Option ℕ) : World :=
  { w with asanaComments := fun q => if q = x then v else w.asanaComments q }

def isPlaneReq : FetchReq → Bool
  | FetchReq.planeReq _ => true
  | FetchReq.asanaReq _ => false

def isAsanaReq : FetchReq → Bool
  | FetchReq.planeReq _ => false
  | FetchReq.asanaReq _ => true

/-- The batch content of a trace event (`none` for a delay). -/
def evBatch : SchedEvent → Option (List FetchReq)
  | SchedEvent.batch b => some b
  | SchedEvent.delayMs _ => none

def isBatchEv : SchedEvent → Bool
  | SchedEvent.batch _ => true
  | SchedEvent.delayMs _ => false

/-- The scorer cascade as worded by the specification: four rules tried in order,
the first rule that fires determines the candidate, a target matching no rule
contributes no candidate.  Stated as a flat rule chain, to be compared with the
control flow translated from the source (`scoreTarget`). -/
def scoreTargetSpec (sourceName : String) (sourceDescription : Option String)
    (target : MatchableTask) : Option MatchCandidate :=
  let ns := normalizeText sourceName
  let nt := normalizeText target.name
  let shorter := min ns.length nt.length
  let longer := max ns.length nt.length
  let ratio := (shorter : ℚ) / (longer : ℚ)
  let nameKeywordScore := keywordOverlapScore sourceName target.name
  -- Rule 1: exact normalized-name equality
  if ns == nt then
    some { gid := target.gid, name := target.name, confidence := 1,
           matchMethod := .exact, matchReason := some "Exact name match" }
  -- Rule 2: mutual-substring containment with length ratio above 0.5
  else if (strIncludes ns nt || strIncludes nt ns) = true ∧ (0.5 : ℚ) < ratio then
    some { gid := target.gid, name := target.name,
           confidence := 0.85 * ratio + 0.15,
           matchMethod := .fuzzy, matchReason := some "Name contains match" }
  -- Rule 3: name-keyword Jaccard at least 0.4
  else if (0.4 : ℚ) ≤ nameKeywordScore then
    some { gid := target.gid, name := target.name,
           confidence := min (0.9 : ℚ) (nameKeywordScore + 0.3),
           matchMethod := .fuzzy,
           matchReason := some (toString (mathRound (nameKeywordScore * 100)) ++ "% keyword match in name") }
  -- Rule 4: description similarity, only when both descriptions are present
  else if strTruthy sourceDescription && strTruthy target.description then
    let sd := sourceDescription.getD ""
    let td := target.description.getD ""
    let descKeywordScore := keywordOverlapScore sd td
    if (0.3 : ℚ) ≤ descKeywordScore then
      some { gid := target.gid, name := target.name,
             confidence := min (0.8 : ℚ) (descKeywordScore + 0.2),
             matchMethod := .description,
             matchReason := some (toString (mathRound (descKeywordScore * 100)) ++ "% description similarity") }
    else
      let crossScore := max (keywordOverlapScore sourceName td) (keywordOverlapScore target.name sd)
      if (0.3 : ℚ) ≤ crossScore then
        some { gid := target.gid, name := target.name,
               confidence := min (0.75 : ℚ) (crossScore + 0.15),
               matchMethod := .description,
               matchReason := some "Name found in description" }
      else none
  else none

/-- An empty world whose comment endpoints always fail; used as concrete input. -/
def failWorld : World :=
  { planeIssues := [], asanaTasks := [], planeComments := fun _ => none,
    asanaComments := fun _ => none }

/-- A small concrete pair list probed in the C9 witness. -/
def cpairsEx : List CPair :=
  [{ planeIssueId := some "a", asanaTaskGid := none },
   { planeIssueId := some "b", asanaTaskGid := some "c" }]



/-- The spec's worked example: target candidates for source name "Fix login bug". -/
def loginTargets : List MatchableTask :=
  [{ gid := "a", name := "Fix login bug", description := none },
   { gid := "b", name := "Update login page", description := none },
   { gid := "c", name := "Bug: login crash", description := none }]

/-- Candidate produced for the "Fix login bug" target in the worked example. -/
def cexA : MatchCandidate :=
  { gid := "a", name := "Fix login bug", confidence := 1, matchMethod := .exact,
    matchReason := some "Exact name match" }

/-- Candidate produced for the "Update login page" target in the worked example
(keyword sets {login} and {login, page}: Jaccard 1/2, confidence 0.8). -/
def cexB : MatchCandidate :=
  { gid := "b", name := "Update login page", confidence := 0.8, matchMethod := .fuzzy,
    matchReason := some "50% keyword match in name" }

/-- Candidate produced for the "Bug: login crash" target in the worked example
(keyword sets {login} and {login, crash}: Jaccard 1/2, confidence 0.8). -/
def cexC : MatchCandidate :=
  { gid := "c", name := "Bug: login crash", confidence := 0.8, matchMethod := .fuzzy,
    matchReason := some "50% keyword match in name" }


/-- Concrete matchable tasks for the duplicate-source-id run. -/
def helloM1 : MatchableTask := { gid := "g1", name := "hello world", description := none }

def helloM2 : MatchableTask := { gid := "g2", name := "hello world", description := none }

def helloC1 : MatchCandidate :=
  { gid := "g1", name := "hello world", confidence := 1, matchMethod := .exact,
    matchReason := some "Exact name match" }

def helloC2 : MatchCandidate :=
  { gid := "g2", name := "hello world", confidence := 1, matchMethod := .exact,
    matchReason := some "Exact name match" }

def helloS1 : SuggestedMatch :=
  { planeTaskId := "a", planeTaskName := "hello world", asanaTaskGid := "g1",
    asanaTaskName := "hello world", confidence := 1, matchMethod := .exact,
    matchReason := "Exact name match" }

def helloS2 : SuggestedMatch :=
  { planeTaskId := "a", planeTaskName := "hello world", asanaTaskGid := "g2",
    asanaTaskName := "hello world", confidence := 1, matchMethod := .exact,
    matchReason := "Exact name match" }

/-- A source list containing the same identifier twice. -/
def helloPlaneDup : List PlaneTaskIn :=
  [{ id := "a", name := "hello world", description := none },
   { id := "a", name := "hello world", description := none }]

def helloAsana : List AsanaTaskIn :=
  [{ gid := "g1", name := "hello world", notes := none },
   { gid := "g2", name := "hello world", notes := none }]


/-- A small world used for concrete round-trip and idempotence runs. -/
def rtPlaneIssue : PlaneIssue :=
  { id := "p1", name := "A", descriptionStripped := none, stateName := some "Open",
    updatedAt := some 10 }

def rtAsanaTask : AsanaTask :=
  { gid := "g1", name := "B", notes := none, completed := false, modifiedAt := some 20 }

def rtWorld : World :=
  { planeIssues := [rtPlaneIssue], asanaTasks := [rtAsanaTask],
    planeComments := fun _ => some 2, asanaComments := fun _ => some 3 }

/-- One fully-linked mapping for the concrete runs. -/
def rtMs : List TaskMapping :=
  [{ id := "m1", planeIssueId := some "p1", asanaTaskGid := some "g1" }]

/-- The empty snapshot store. -/
def emptyStore : SnapStore := fun _ => none


/-- A drifted snapshot for the concrete idempotence run (old Plane name "OldA"). -/
def rtDriftStore : SnapStore := fun k =>
  if k = "m1" then
    some { planeName := some "OldA", planeDescription := some "",
           planeState := some "Open", planeModifiedAt := some 5,
           planeCommentsCount := 2, asanaName := some "B",
           asanaDescription := some "", asanaCompleted := some false,
           asanaModifiedAt := some 20, asanaCommentsCount := 3 }
  else none

/-! # Theorems -/

/-! ## C4: batching and trace of the secondary-field fetcher -/

theorem chunksOf3_length_le : ∀ (l : List α), ∀ b ∈ chunksOf3 l, b.length ≤ 3
  | [] => by simp [chunksOf3]
  | [a] => by simp [chunksOf3]
  | [a, b] => by simp [chunksOf3]
  | a :: b :: c :: rest => by
    intro x hx
    simp only [chunksOf3, List.mem_cons] at hx
    rcases hx with h | h
    · subst h; simp
    · exact chunksOf3_length_le rest x h

lemma taskRequests_length_le (om : Option FetchFilter) (t : CPair) :
    (taskRequests om t).length ≤ 2 := by
  unfold taskRequests
  cases t.planeIssueId <;> cases t.asanaTaskGid <;> simp <;> split_ifs <;> simp

lemma taskRequests_filter_plane_le (om : Option FetchFilter) (t : CPair) :
    ((taskRequests om t).filter isPlaneReq).length ≤ 1 := by
  unfold taskRequests
  cases t.planeIssueId <;> cases t.asanaTaskGid <;>
    simp [List.filter_append] <;> split_ifs <;> simp [isPlaneReq]

lemma taskRequests_filter_asana_le (om : Option FetchFilter) (t : CPair) :
    ((taskRequests om t).filter isAsanaReq).length ≤ 1 := by
  unfold taskRequests
  cases t.planeIssueId <;> cases t.asanaTaskGid <;>
    simp [List.filter_append] <;> split_ifs <;> simp [isAsanaReq]

lemma flatMap_filter_length_le (f : CPair → List FetchReq) (pred : FetchReq → Bool)
    (k : ℕ) (hb : ∀ t, ((f t).filter pred).length ≤ k) :
    ∀ chunk : List CPair, ((chunk.flatMap f).filter pred).length ≤ k * chunk.length := by
  intro chunk
  induction chunk with
  | nil => simp
  | cons t rest ih =>
    simp only [List.flatMap_cons, List.filter_append, List.length_append, List.length_cons]
    calc ((f t).filter pred).length + ((rest.flatMap f).filter pred).length
        ≤ k + k * rest.length := Nat.add_le_add (hb t) ih
      _ = k * (rest.length + 1) := by ring

lemma flatMap_length_le (f : CPair → List FetchReq) (k : ℕ)
    (hb : ∀ t, (f t).length ≤ k) :
    ∀ chunk : List CPair, (chunk.flatMap f).length ≤ k * chunk.length := by
  intro chunk
  induction chunk with
  | nil => simp
  | cons t rest ih =>
    simp only [List.flatMap_cons, List.length_append, List.length_cons]
    calc (f t).length + (rest.flatMap f).length
        ≤ k + k * rest.length := Nat.add_le_add (hb t) ih
      _ = k * (rest.length + 1) := by ring

theorem scheduleOf_batches : ∀ bs : List (List FetchReq),
    (scheduleOf bs).filterMap evBatch = bs
  | [] => by simp [scheduleOf]
  | [b] => by simp [scheduleOf, evBatch]
  | b :: b2 :: rest => by
    simp only [scheduleOf, List.filterMap_cons, evBatch]
    rw [scheduleOf_batches (b2 :: rest)]

theorem scheduleOf_delays : ∀ bs : List (List FetchReq),
    ∀ e ∈ scheduleOf bs, isBatchEv e = false → e = SchedEvent.delayMs 1500
  | [] => by simp [scheduleOf]
  | [b] => by simp [scheduleOf, isBatchEv]
  | b :: b2 :: rest => by
    intro e he hb
    simp only [scheduleOf, List.mem_cons] at he
    rcases he with h | h | h
    · subst h; simp [isBatchEv] at hb
    · exact h
    · exact scheduleOf_delays (b2 :: rest) e h hb

lemma scheduleOf_cons_head (b : List FetchReq) (bs : List (List FetchReq)) :
    ∃ l, scheduleOf (b :: bs) = SchedEvent.batch b :: l := by
  cases bs with
  | nil => exact ⟨[], rfl⟩
  | cons b2 rest => exact ⟨_, rfl⟩

theorem scheduleOf_alternates : ∀ bs : List (List FetchReq),
    List.Chain' (fun a b => isBatchEv a ≠ isBatchEv b) (scheduleOf bs)
  | [] => by simp [scheduleOf]
  | [b] => by simp [scheduleOf]
  | b :: b2 :: rest => by
    obtain ⟨l, hl⟩ := scheduleOf_cons_head b2 rest
    simp only [scheduleOf, hl]
    refine List.Chain'.cons (by simp [isBatchEv]) ?_
    refine List.Chain'.cons (by simp [isBatchEv]) ?_
    have := scheduleOf_alternates (b2 :: rest)
    rwa [hl] at this

/-- C4 (amended): every batch holds at most 3 tasks' requests, hence at most 3
requests per remote system and at most 6 in total; the trace is an alternation of
batches and fixed 1500 ms delays, the batches in submission order. -/
theorem fetcher_batching_trace (om : Option FetchFilter) (ts : List CPair) :
    (∀ b ∈ fetchBatches om ts,
      ((b.filter isPlaneReq).length ≤ 3 ∧ (b.filter isAsanaReq).length ≤ 3) ∧
        b.length ≤ 6) ∧
    (fetchSchedule om ts).filterMap evBatch = fetchBatches om ts ∧
    (∀ e ∈ fetchSchedule om ts, isBatchEv e = false → e = SchedEvent.delayMs 1500) ∧
    List.Chain' (fun a b => isBatchEv a ≠ isBatchEv b) (fetchSchedule om ts) := by
  refine ⟨?_, scheduleOf_batches _, scheduleOf_delays _, scheduleOf_alternates _⟩
  intro b hb
  simp only [fetchBatches, List.mem_map] at hb
  obtain ⟨chunk, hchunk, rfl⟩ := hb
  have hlen := chunksOf3_length_le _ chunk hchunk
  refine ⟨⟨?_, ?_⟩, ?_⟩
  · calc ((chunk.flatMap (taskRequests om)).filter isPlaneReq).length
        ≤ 1 * chunk.length := flatMap_filter_length_le _ _ 1 (taskRequests_filter_plane_le om) chunk
      _ ≤ 3 := by omega
  · calc ((chunk.flatMap (taskRequests om)).filter isAsanaReq).length
        ≤ 1 * chunk.length := flatMap_filter_length_le _ _ 1 (taskRequests_filter_asana_le om) chunk
      _ ≤ 3 := by omega
  · calc (chunk.flatMap (taskRequests om)).length
        ≤ 2 * chunk.length := flatMap_length_le _ 2 (taskRequests_length_le om) chunk
      _ ≤ 6 := by omega

/-- C4 (counterexample): with three two-sided pairs and no filter, the single batch
issues 6 concurrent requests, refuting "at most 3 concurrent requests per batch". -/
theorem fetcher_batch_of_six_requests :
    ∃ b ∈ fetchBatches none
      [{ planeIssueId := some "p1", asanaTaskGid := some "g1" },
       { planeIssueId := some "p2", asanaTaskGid := some "g2" },
       { planeIssueId := some "p3", asanaTaskGid := some "g3" }], 3 < b.length := by
  decide


/-! ## Fetcher result maps: characterization -/

lemma mapGet_eq_of_val (entries : List (String × ℕ)) (f : String → ℕ)
    (h : ∀ e ∈ entries, e.2 = f e.1) (k : String) :
    mapGet entries k =
      if entries.any (fun e => e.1 == k) = true then some (f k) else none := by
  unfold mapGet
  cases hf : entries.reverse.find? (fun e => e.1 == k) with
  | none =>
    rw [if_neg]
    · rfl
    · have hall := List.find?_eq_none.mp hf
      simp only [List.any_eq_true]
      rintro ⟨e, he, hk⟩
      exact absurd hk (by simpa using hall e (by simpa using he))
  | some e =>
    have h1 : (e.1 == k) = true := by
      have := List.find?_some hf
      simpa using this
    have h2 : e ∈ entries := by
      have := List.mem_of_find?_eq_some hf
      simpa using this
    rw [if_pos (List.any_eq_true.mpr ⟨e, h2, h1⟩)]
    simp only [Option.map_some']
    rw [h e h2, show e.1 = k from by simpa using h1]

lemma fetchPlaneEntries_val (w : World) (om : Option FetchFilter) (ts : List CPair) :
    ∀ e ∈ fetchPlaneEntries w om ts, e.2 = (w.planeComments e.1).getD 0 := by
  intro e he
  simp only [fetchPlaneEntries, List.mem_filterMap] at he
  obtain ⟨t, _, ht⟩ := he
  cases hpi : t.planeIssueId with
  | none => simp [hpi] at ht
  | some q =>
    rw [hpi] at ht
    by_cases hok : planeFetchOk om q = true
    · simp only [hok, if_true, Option.some_inj] at ht
      subst ht; rfl
    · simp [hok] at ht

lemma fetchAsanaEntries_val (w : World) (om : Option FetchFilter) (ts : List CPair) :
    ∀ e ∈ fetchAsanaEntries w om ts, e.2 = (w.asanaComments e.1).getD 0 := by
  intro e he
  simp only [fetchAsanaEntries, List.mem_filterMap] at he
  obtain ⟨t, _, ht⟩ := he
  cases hg : t.asanaTaskGid with
  | none => simp [hg] at ht
  | some q =>
    rw [hg] at ht
    by_cases hok : asanaFetchOk om q = true
    · simp only [hok, if_true, Option.some_inj] at ht
      subst ht; rfl
    · simp [hok] at ht

/-- The plane map of a fetcher call is defined at exactly the eligible ids, always
carrying the live count with a caught failure recorded as `0`. -/
lemma fetchCommentCountsBatched_fst (w : World) (om : Option FetchFilter)
    (ts : List CPair) (p : String) :
    (fetchCommentCountsBatched w om ts).1 p =
      if (∃ t ∈ tasksToFetch om ts, t.planeIssueId = some p) ∧ planeFetchOk om p = true
      then some ((w.planeComments p).getD 0) else none := by
  show mapGet (fetchPlaneEntries w om ts) p = _
  rw [mapGet_eq_of_val _ (fun k => (w.planeComments k).getD 0) (fetchPlaneEntries_val w om ts) p]
  congr 1
  rw [eq_iff_iff]
  constructor
  · intro hany
    simp only [List.any_eq_true] at hany
    obtain ⟨e, he, hk⟩ := hany
    simp only [fetchPlaneEntries, List.mem_filterMap] at he
    obtain ⟨t, htm, ht⟩ := he
    cases hpi : t.planeIssueId with
    | none => simp [hpi] at ht
    | some q =>
      rw [hpi] at ht
      by_cases hok : planeFetchOk om q = true
      · simp only [hok, if_true, Option.some_inj] at ht
        subst ht
        simp only [beq_iff_eq] at hk
        subst hk
        exact ⟨⟨t, htm, hpi⟩, hok⟩
      · simp [hok] at ht
  · rintro ⟨⟨t, htm, hpi⟩, hok⟩
    simp only [List.any_eq_true]
    refine ⟨(p, (w.planeComments p).getD 0), ?_, by simp⟩
    simp only [fetchPlaneEntries, List.mem_filterMap]
    exact ⟨t, htm, by rw [hpi]; simp [hok]⟩

lemma fetchCommentCountsBatched_snd (w : World) (om : Option FetchFilter)
    (ts : List CPair) (g : String) :
    (fetchCommentCountsBatched w om ts).2 g =
      if (∃ t ∈ tasksToFetch om ts, t.asanaTaskGid = some g) ∧ asanaFetchOk om g = true
      then some ((w.asanaComments g).getD 0) else none := by
  show mapGet (fetchAsanaEntries w om ts) g = _
  rw [mapGet_eq_of_val _ (fun k => (w.asanaComments k).getD 0) (fetchAsanaEntries_val w om ts) g]
  congr 1
  rw [eq_iff_iff]
  constructor
  · intro hany
    simp only [List.any_eq_true] at hany
    obtain ⟨e, he, hk⟩ := hany
    simp only [fetchAsanaEntries, List.mem_filterMap] at he
    obtain ⟨t, htm, ht⟩ := he
    cases hg : t.asanaTaskGid with
    | none => simp [hg] at ht
    | some q =>
      rw [hg] at ht
      by_cases hok : asanaFetchOk om q = true
      · simp only [hok, if_true, Option.some_inj] at ht
        subst ht
        simp only [beq_iff_eq] at hk
        subst hk
        exact ⟨⟨t, htm, hg⟩, hok⟩
      · simp [hok] at ht
  · rintro ⟨⟨t, htm, hg⟩, hok⟩
    simp only [List.any_eq_true]
    refine ⟨(g, (w.asanaComments g).getD 0), ?_, by simp⟩
    simp only [fetchAsanaEntries, List.mem_filterMap]
    exact ⟨t, htm, by rw [hg]; simp [hok]⟩


/-! ## C9: failure isolation and empty-input behavior of the fetcher -/

/-- C9: calling the fetcher with an empty pair list is a no-op with empty result
maps; a fetch failure at one identifier (`x` on the Plane side, `y` on the Asana
side) is recorded as a count of 0 for that identifier when it is fetched at all,
and every other identifier's result is exactly what it would be had the failing
endpoint returned anything else — no abort of the batch or the call. -/
theorem fetch_failure_isolated (w : World) (om : Option FetchFilter) (ts : List CPair)
    (x y : String) (hx : w.planeComments x = none) (hy : w.asanaComments y = none) :
    (∀ p, (fetchCommentCountsBatched w om []).1 p = none) ∧
    (∀ g, (fetchCommentCountsBatched w om []).2 g = none) ∧
    ((fetchCommentCountsBatched w om ts).1 x = none ∨
      (fetchCommentCountsBatched w om ts).1 x = some 0) ∧
    ((fetchCommentCountsBatched w om ts).2 y = none ∨
      (fetchCommentCountsBatched w om ts).2 y = some 0) ∧
    (∀ v p, p ≠ x →
      (fetchCommentCountsBatched (setPlaneComments w x v) om ts).1 p =
        (fetchCommentCountsBatched w om ts).1 p) ∧
    (∀ v g, (fetchCommentCountsBatched (setPlaneComments w x v) om ts).2 g =
        (fetchCommentCountsBatched w om ts).2 g) ∧
    (∀ v g, g ≠ y →
      (fetchCommentCountsBatched (setAsanaComments w y v) om ts).2 g =
        (fetchCommentCountsBatched w om ts).2 g) ∧
    (∀ v p, (fetchCommentCountsBatched (setAsanaComments w y v) om ts).1 p =
        (fetchCommentCountsBatched w om ts).1 p) := by
  have hempty : tasksToFetch om ([] : List CPair) = [] := by
    unfold tasksToFetch; cases om <;> rfl
  refine ⟨?_, ?_, ?_, ?_, ?_, ?_, ?_, ?_⟩
  · intro p; rw [fetchCommentCountsBatched_fst, if_neg]; simp [hempty]
  · intro g; rw [fetchCommentCountsBatched_snd, if_neg]; simp [hempty]
  · rw [fetchCommentCountsBatched_fst]
    split_ifs with h
    · right; rw [hx]; rfl
    · left; rfl
  · rw [fetchCommentCountsBatched_snd]
    split_ifs with h
    · right; rw [hy]; rfl
    · left; rfl
  · intro v p hp
    rw [fetchCommentCountsBatched_fst, fetchCommentCountsBatched_fst]
    have : (setPlaneComments w x v).planeComments p = w.planeComments p := by
      simp [setPlaneComments, hp]
    rw [show (setPlaneComments w x v).planeComments p = w.planeComments p from this]
  · intro v g
    rw [fetchCommentCountsBatched_snd, fetchCommentCountsBatched_snd]
    rfl
  · intro v g hg
    rw [fetchCommentCountsBatched_snd, fetchCommentCountsBatched_snd]
    have : (setAsanaComments w y v).asanaComments g = w.asanaComments g := by
      simp [setAsanaComments, hg]
    rw [show (setAsanaComments w y v).asanaComments g = w.asanaComments g from this]
  · intro v p
    rw [fetchCommentCountsBatched_fst, fetchCommentCountsBatched_fst]
    rfl

/-- C9 witness: the theorem applied at a concrete world that fails on the probed
identifiers. -/
theorem fetch_failure_isolated_witness :
    failWorld.planeComments "a" = none ∧ failWorld.asanaComments "c" = none ∧
    ((fetchCommentCountsBatched failWorld none cpairsEx).1 "a" = none ∨
      (fetchCommentCountsBatched failWorld none cpairsEx).1 "a" = some 0) :=
  ⟨rfl, rfl, (fetch_failure_isolated failWorld none cpairsEx "a" "c" rfl rfl).2.2.1⟩


/-! ## C8: which pairs get their secondary field fetched by detectChanges -/

/-- The Bool timestamp test of the first pass, as the spec words it: fetched when
the live timestamp is strictly newer than the snapshot's, or when either
timestamp is unusable. -/
lemma planeModifiedSinceSnapshot_iff (pi : PlaneIssue) (s : TaskSnapshot) :
    planeModifiedSinceSnapshot pi s = true ↔
      pi.updatedAt = none ∨ s.planeModifiedAt = none ∨
        ∃ u t, pi.updatedAt = some u ∧ s.planeModifiedAt = some t ∧ t < u := by
  unfold planeModifiedSinceSnapshot
  cases hu : pi.updatedAt with
  | none => simp
  | some u =>
    cases ht : s.planeModifiedAt with
    | none => simp
    | some t => simp

lemma mem_modifiedPlaneIds_iff (w : World) (store : SnapStore)
    (linked : List TaskMapping) (p : String) :
    p ∈ modifiedPlaneIds w store linked ↔
      ∃ tm ∈ linked, tm.planeIssueId = some p ∧
        ∃ g, tm.asanaTaskGid = some g ∧
        ∃ pi, planeIssueMap w p = some pi ∧ (asanaTaskMap w g).isSome ∧
        ∃ s, store tm.id = some s ∧ planeModifiedSinceSnapshot pi s = true := by
  unfold modifiedPlaneIds
  rw [List.mem_filterMap]
  constructor
  · rintro ⟨tm, htm, hf⟩
    cases hp : tm.planeIssueId with
    | none => simp [hp] at hf
    | some p1 =>
      cases hg : tm.asanaTaskGid with
      | none => simp [hp, hg] at hf
      | some g =>
        cases hpi : planeIssueMap w p1 with
        | none => simp [hp, hg, hpi] at hf
        | some pi =>
          cases ha : asanaTaskMap w g with
          | none => simp [hp, hg, hpi, ha] at hf
          | some a =>
            cases hs : store tm.id with
            | none => simp [hp, hg, hpi, ha, hs] at hf
            | some s =>
              simp only [hp, hg, hpi, ha, hs] at hf
              by_cases hmod : planeModifiedSinceSnapshot pi s = true
              · rw [if_pos hmod, Option.some_inj] at hf
                subst hf
                exact ⟨tm, htm, hp, g, hg, pi, hpi, by simp [ha], s, hs, hmod⟩
              · rw [if_neg hmod] at hf
                exact absurd hf (by simp)
  · rintro ⟨tm, htm, hp, g, hg, pi, hpi, ha, s, hs, hmod⟩
    refine ⟨tm, htm, ?_⟩
    obtain ⟨a, ha'⟩ := Option.isSome_iff_exists.mp ha
    simp only [hp, hg, hpi, ha', hs]
    rw [if_pos hmod]

lemma mem_asanaIdsToCheck_iff (w : World) (store : SnapStore)
    (linked : List TaskMapping) (g : String) :
    g ∈ asanaIdsToCheck w store linked ↔
      ∃ tm ∈ linked, tm.asanaTaskGid = some g ∧
        ∃ p, tm.planeIssueId = some p ∧ (planeIssueMap w p).isSome ∧
          (asanaTaskMap w g).isSome ∧ (store tm.id).isSome := by
  unfold asanaIdsToCheck
  rw [List.mem_filterMap]
  constructor
  · rintro ⟨tm, htm, hf⟩
    cases hp : tm.planeIssueId with
    | none => simp [hp] at hf
    | some p =>
      cases hg : tm.asanaTaskGid with
      | none => simp [hp, hg] at hf
      | some g1 =>
        cases hpi : planeIssueMap w p with
        | none => simp [hp, hg, hpi] at hf
        | some pi =>
          cases ha : asanaTaskMap w g1 with
          | none => simp [hp, hg, hpi, ha] at hf
          | some a =>
            cases hs : store tm.id with
            | none => simp [hp, hg, hpi, ha, hs] at hf
            | some s =>
              simp only [hp, hg, hpi, ha, hs, Option.some_inj] at hf
              subst hf
              exact ⟨tm, htm, hg, p, hp, by simp [hpi], by simp [ha], by simp [hs]⟩
  · rintro ⟨tm, htm, hg, p, hp, hpi, ha, hs⟩
    refine ⟨tm, htm, ?_⟩
    obtain ⟨pi, hpi'⟩ := Option.isSome_iff_exists.mp hpi
    obtain ⟨a, ha'⟩ := Option.isSome_iff_exists.mp ha
    obtain ⟨s, hs'⟩ := Option.isSome_iff_exists.mp hs
    simp only [hp, hg, hpi', ha', hs']

/-- The plane counts map of `detectChanges` is defined at exactly the ids collected
by the first pass. -/
lemma detectCounts_fst (w : World) (store : SnapStore) (linked : List TaskMapping)
    (p : String) :
    (detectCounts w store linked).1 p =
      if p ∈ modifiedPlaneIds w store linked
      then some ((w.planeComments p).getD 0) else none := by
  unfold detectCounts
  by_cases hsz : ((modifiedPlaneIds w store linked).isEmpty &&
      (asanaIdsToCheck w store linked).isEmpty) = true
  · rw [if_pos hsz]
    obtain ⟨h1, -⟩ := Bool.and_eq_true_iff.mp hsz
    rw [List.isEmpty_iff.mp h1]
    simp
  · rw [if_neg hsz, fetchCommentCountsBatched_fst]
    by_cases hmem : p ∈ modifiedPlaneIds w store linked
    · rw [if_pos hmem, if_pos]
      obtain ⟨tm, htm, hp, -⟩ := (mem_modifiedPlaneIds_iff w store linked p).mp hmem
      constructor
      · refine ⟨toCPair tm, ?_, hp⟩
        unfold tasksToFetch
        rw [List.mem_filter]
        refine ⟨List.mem_map_of_mem toCPair htm, ?_⟩
        have hp' : (toCPair tm).planeIssueId = some p := hp
        simp only [hp']
        simp [List.contains, hmem]
      · simp [planeFetchOk, List.contains, hmem]
    · rw [if_neg hmem, if_neg]
      rintro ⟨-, hok⟩
      exact hmem (by simpa [planeFetchOk, List.contains] using hok)

/-- The asana counts map of `detectChanges` is defined at exactly the gids collected
by the first pass. -/
lemma detectCounts_snd (w : World) (store : SnapStore) (linked : List TaskMapping)
    (g : String) :
    (detectCounts w store linked).2 g =
      if g ∈ asanaIdsToCheck w store linked
      then some ((w.asanaComments g).getD 0) else none := by
  unfold detectCounts
  by_cases hsz : ((modifiedPlaneIds w store linked).isEmpty &&
      (asanaIdsToCheck w store linked).isEmpty) = true
  · rw [if_pos hsz]
    obtain ⟨-, h2⟩ := Bool.and_eq_true_iff.mp hsz
    rw [List.isEmpty_iff.mp h2]
    simp
  · rw [if_neg hsz, fetchCommentCountsBatched_snd]
    by_cases hmem : g ∈ asanaIdsToCheck w store linked
    · rw [if_pos hmem, if_pos]
      obtain ⟨tm, htm, hg, -⟩ := (mem_asanaIdsToCheck_iff w store linked g).mp hmem
      constructor
      · refine ⟨toCPair tm, ?_, hg⟩
        unfold tasksToFetch
        rw [List.mem_filter]
        refine ⟨List.mem_map_of_mem toCPair htm, ?_⟩
        have hg' : (toCPair tm).asanaTaskGid = some g := hg
        simp only [hg']
        simp [List.contains, hmem]
      · simp [asanaFetchOk, List.contains, hmem]
    · rw [if_neg hmem, if_neg]
      rintro ⟨-, hok⟩
      exact hmem (by simpa [asanaFetchOk, List.contains] using hok)

/-- C8: per side, exactly which pairs have their comment count fetched by
`detectChanges`: on the Plane side those with a snapshot whose live record is
strictly newer than the snapshot timestamp or whose timestamps are unusable; on
the Asana side exactly the pairs that have a snapshot (whose stored baseline
count, a NOT NULL column, is necessarily non-null), skipping pairs with no
snapshot. -/
theorem detect_fetch_selection (w : World) (store : SnapStore)
    (ms : List TaskMapping) :
    (∀ p, ((detectCounts w store (linkedMappings ms)).1 p).isSome ↔
      ∃ tm ∈ linkedMappings ms, tm.planeIssueId = some p ∧
        ∃ g, tm.asanaTaskGid = some g ∧
        ∃ pi, planeIssueMap w p = some pi ∧ (asanaTaskMap w g).isSome ∧
        ∃ s, store tm.id = some s ∧
          (pi.updatedAt = none ∨ s.planeModifiedAt = none ∨
            ∃ u t, pi.updatedAt = some u ∧ s.planeModifiedAt = some t ∧ t < u)) ∧
    (∀ g, ((detectCounts w store (linkedMappings ms)).2 g).isSome ↔
      ∃ tm ∈ linkedMappings ms, tm.asanaTaskGid = some g ∧
        ∃ p, tm.planeIssueId = some p ∧ (planeIssueMap w p).isSome ∧
          (asanaTaskMap w g).isSome ∧ (store tm.id).isSome) := by
  constructor
  · intro p
    rw [detectCounts_fst]
    by_cases hmem : p ∈ modifiedPlaneIds w store (linkedMappings ms)
    · rw [if_pos hmem]
      simp only [Option.isSome_some, true_iff]
      obtain ⟨tm, htm, hp, g, hg, pi, hpi, ha, s, hs, hmod⟩ :=
        (mem_modifiedPlaneIds_iff w store (linkedMappings ms) p).mp hmem
      exact ⟨tm, htm, hp, g, hg, pi, hpi, ha, s, hs,
        (planeModifiedSinceSnapshot_iff pi s).mp hmod⟩
    · rw [if_neg hmem]
      simp only [Option.isSome_none, Bool.false_eq_true, false_iff]
      rintro ⟨tm, htm, hp, g, hg, pi, hpi, ha, s, hs, hcond⟩
      exact hmem ((mem_modifiedPlaneIds_iff w store (linkedMappings ms) p).mpr
        ⟨tm, htm, hp, g, hg, pi, hpi, ha, s, hs,
          (planeModifiedSinceSnapshot_iff pi s).mpr hcond⟩)
  · intro g
    rw [detectCounts_snd]
    by_cases hmem : g ∈ asanaIdsToCheck w store (linkedMappings ms)
    · rw [if_pos hmem]
      simp only [Option.isSome_some, true_iff]
      exact (mem_asanaIdsToCheck_iff w store (linkedMappings ms) g).mp hmem
    · rw [if_neg hmem]
      simp only [Option.isSome_none, Bool.false_eq_true, false_iff]
      intro h
      exact hmem ((mem_asanaIdsToCheck_iff w store (linkedMappings ms) g).mpr h)


/-! ## C10: pairs without a snapshot neither get one from detectChanges nor
reach the change log -/

lemma taskMappingId_of_mem_pairPlaneChanges {c : Change} {tm : TaskMapping}
    {pi : PlaneIssue} {a : AsanaTask} {s : TaskSnapshot} {cnt : Option ℕ}
    (h : c ∈ pairPlaneChanges tm pi a s cnt) : c.taskMappingId = tm.id := by
  simp only [pairPlaneChanges, List.mem_append] at h
  rcases h with ((h | h) | h) | h <;>
  · repeat' split at h
    all_goals
      first
        | (rw [List.mem_singleton] at h; subst h; rfl)
        | exact absurd h (List.not_mem_nil c)

lemma field_of_mem_pairPlaneChanges {c : Change} {tm : TaskMapping}
    {pi : PlaneIssue} {a : AsanaTask} {s : TaskSnapshot} {cnt : Option ℕ}
    (h : c ∈ pairPlaneChanges tm pi a s cnt) : c.field ≠ "new" := by
  simp only [pairPlaneChanges, List.mem_append] at h
  rcases h with ((h | h) | h) | h <;>
  · repeat' split at h
    all_goals
      first
        | (rw [List.mem_singleton] at h; subst h; simp [mkChange])
        | exact absurd h (List.not_mem_nil c)

lemma taskMappingId_of_mem_pairAsanaChanges {c : Change} {tm : TaskMapping}
    {pi : PlaneIssue} {a : AsanaTask} {s : TaskSnapshot} {cnt : Option ℕ}
    (h : c ∈ pairAsanaChanges tm pi a s cnt) : c.taskMappingId = tm.id := by
  simp only [pairAsanaChanges, List.mem_append] at h
  rcases h with ((h | h) | h) | h <;>
  · repeat' split at h
    all_goals
      first
        | (rw [List.mem_singleton] at h; subst h; rfl)
        | exact absurd h (List.not_mem_nil c)

lemma field_of_mem_pairAsanaChanges {c : Change} {tm : TaskMapping}
    {pi : PlaneIssue} {a : AsanaTask} {s : TaskSnapshot} {cnt : Option ℕ}
    (h : c ∈ pairAsanaChanges tm pi a s cnt) : c.field ≠ "new" := by
  simp only [pairAsanaChanges, List.mem_append] at h
  rcases h with ((h | h) | h) | h <;>
  · repeat' split at h
    all_goals
      first
        | (rw [List.mem_singleton] at h; subst h; simp [mkChange])
        | exact absurd h (List.not_mem_nil c)

/-- Every change surviving the `field !== "new"` filter originates from a mapping
that had a snapshot at the start of the pass, and carries that mapping's id. -/
lemma mem_allChanges_elim (w : World)
    (counts : (String → Option ℕ) × (String → Option ℕ)) (now : ℤ)
    (store : SnapStore) (linked : List TaskMapping) (c : Change)
    (h : c ∈ (linked.flatMap (pairPlaneOut w counts now store) ++
        linked.flatMap (pairAsanaOut w counts store)).filter
        (fun c => !(c.field == "new"))) :
    c.field ≠ "new" ∧ ∃ tm ∈ linked, c.taskMappingId = tm.id ∧ (store tm.id).isSome := by
  rw [List.mem_filter] at h
  obtain ⟨hmem, hnew⟩ := h
  have hfield : c.field ≠ "new" := by simpa using hnew
  refine ⟨hfield, ?_⟩
  rw [List.mem_append] at hmem
  rcases hmem with hmem | hmem
  · rw [List.mem_flatMap] at hmem
    obtain ⟨tm, htm, hc⟩ := hmem
    unfold pairPlaneOut at hc
    cases hp : tm.planeIssueId with
    | none => simp [hp] at hc
    | some p =>
      cases hg : tm.asanaTaskGid with
      | none => simp [hp, hg] at hc
      | some g =>
        cases hpi : planeIssueMap w p with
        | none => simp [hp, hg, hpi] at hc
        | some pi =>
          cases ha : asanaTaskMap w g with
          | none => simp [hp, hg, hpi, ha] at hc
          | some a =>
            cases hs : store tm.id with
            | none =>
              simp only [hp, hg, hpi, ha, hs, List.mem_singleton] at hc
              subst hc
              exact absurd rfl hfield
            | some s =>
              simp only [hp, hg, hpi, ha, hs] at hc
              exact ⟨tm, htm, taskMappingId_of_mem_pairPlaneChanges hc, by simp [hs]⟩
  · rw [List.mem_flatMap] at hmem
    obtain ⟨tm, htm, hc⟩ := hmem
    unfold pairAsanaOut at hc
    cases hp : tm.planeIssueId with
    | none => simp [hp] at hc
    | some p =>
      cases hg : tm.asanaTaskGid with
      | none => simp [hp, hg] at hc
      | some g =>
        cases hpi : planeIssueMap w p with
        | none => simp [hp, hg, hpi] at hc
        | some pi =>
          cases ha : asanaTaskMap w g with
          | none => simp [hp, hg, hpi, ha] at hc
          | some a =>
            cases hs : store tm.id with
            | none => simp [hp, hg, hpi, ha, hs] at hc
            | some s =>
              simp only [hp, hg, hpi, ha, hs] at hc
              exact ⟨tm, htm, taskMappingId_of_mem_pairAsanaChanges hc, by simp [hs]⟩

/-- `upsertOne` touches no key other than its `taskId` argument. -/
lemma upsertOne_apply_ne (w : World)
    (counts : (String → Option ℕ) × (String → Option ℕ)) (store0 : SnapStore)
    (linked : List TaskMapping) (st : SnapStore) (taskId k : String)
    (hk : k ≠ taskId) : upsertOne w counts store0 linked st taskId k = st k := by
  unfold upsertOne
  cases hf : linked.find? (fun t => t.id == taskId) with
  | none => rfl
  | some tm =>
    cases hp : tm.planeIssueId with
    | none => simp [hp]
    | some p =>
      cases hg : tm.asanaTaskGid with
      | none => simp [hp, hg]
      | some g =>
        cases hpi : planeIssueMap w p with
        | none => simp [hp, hg, hpi]
        | some pi =>
          cases ha : asanaTaskMap w g with
          | none => simp [hp, hg, hpi, ha]
          | some a => simp [hp, hg, hpi, ha, hk]

lemma foldl_upsertOne_not_mem (w : World)
    (counts : (String → Option ℕ) × (String → Option ℕ)) (store0 : SnapStore)
    (linked : List TaskMapping) :
    ∀ (ids : List String) (st : SnapStore) (k : String), k ∉ ids →
      (ids.foldl (upsertOne w counts store0 linked) st) k = st k := by
  intro ids
  induction ids with
  | nil => intro st k _; rfl
  | cons i rest ih =>
    intro st k hk
    rw [List.mem_cons] at hk
    push_neg at hk
    show (rest.foldl (upsertOne w counts store0 linked)
      (upsertOne w counts store0 linked st i)) k = st k
    rw [ih _ k hk.2, upsertOne_apply_ne w counts store0 linked st i k hk.1]

/-- C10: `detectChanges` never writes the first snapshot of a pair (a key with no
stored snapshot still has none after the pass), and the synthetic "new" entries
are never among the rows appended to the persistent change log. -/
theorem detect_no_snapshot_frame (w : World) (now : ℤ) (store : SnapStore)
    (ms : List TaskMapping) :
    (∀ c ∈ (detectChanges w now store ms).logged, c.field ≠ "new") ∧
    (∀ k, store k = none → (detectChanges w now store ms).store k = none) := by
  constructor
  · intro c hc
    exact (mem_allChanges_elim w (detectCounts w store (linkedMappings ms)) now store
      (linkedMappings ms) c hc).1
  · intro k hk
    show DetectResult.store (detectChanges w now store ms) k = none
    simp only [detectChanges]
    split
    · exact hk
    · rw [foldl_upsertOne_not_mem]
      · exact hk
      · intro hmem
        rw [detectChangedIds, List.mem_dedup, List.mem_map] at hmem
        rw [detectAllChanges] at hmem
        obtain ⟨c, hc, hck⟩ := hmem
        obtain ⟨-, tm, htm, hid, hsome⟩ :=
          mem_allChanges_elim w (detectCounts w store (linkedMappings ms)) now store
            (linkedMappings ms) c hc
        rw [hid] at hck
        rw [hck, hk] at hsome
        exact absurd hsome (by simp)


/-! ## C5: the scorer is the spec's four-rule cascade, first rule wins -/

set_option maxHeartbeats 1000000 in
lemma scoreTarget_eq_spec (sourceName : String) (sourceDescription : Option String)
    (target : MatchableTask) :
    scoreTarget sourceName sourceDescription target =
      scoreTargetSpec sourceName sourceDescription target := by
  simp only [scoreTarget, scoreTargetSpec, scoreTargetKeywordStage]
  split_ifs <;> first | rfl | tauto

/-- C5: `findMatches` is exactly the specified per-target rule cascade — the four
rules applied in order with the first firing rule deciding the candidate (exact,
then containment with ratio above 0.5, then name-keyword Jaccard at 0.4, then the
description rules), targets matching no rule contributing nothing — followed by
the threshold filter, the stable descending sort, and truncation to 5. -/
theorem findMatches_rule_cascade (sourceName : String) (targetTasks : List MatchableTask)
    (threshold : ℚ) (sourceDescription : Option String) :
    findMatches sourceName targetTasks threshold sourceDescription =
      (sortByKeyDesc (fun c => c.confidence)
        ((targetTasks.filterMap (scoreTargetSpec sourceName sourceDescription)).filter
          (fun c => threshold ≤ c.confidence))).take 5 := by
  unfold findMatches
  have h : scoreTarget sourceName sourceDescription =
      scoreTargetSpec sourceName sourceDescription :=
    funext (scoreTarget_eq_spec sourceName sourceDescription)
  rw [h]

/-! ## C6: length, sortedness and confidence bounds of the scorer's output -/

lemma keywordStage_conf_le_one {sourceName : String} {sourceDescription : Option String}
    {target : MatchableTask} {c : MatchCandidate}
    (h : scoreTargetKeywordStage sourceName sourceDescription target = some c) :
    c.confidence ≤ 1 := by
  simp only [scoreTargetKeywordStage] at h
  split_ifs at h
  all_goals
    first
      | exact Option.noConfusion h
      | (rw [Option.some_inj] at h; subst h;
         exact le_trans (min_le_left _ _) (by norm_num))

lemma scoreTarget_conf_le_one {sourceName : String} {sourceDescription : Option String}
    {target : MatchableTask} {c : MatchCandidate}
    (h : scoreTarget sourceName sourceDescription target = some c) :
    c.confidence ≤ 1 := by
  simp only [scoreTarget] at h
  split_ifs at h with h1 h2 h3
  · rw [Option.some_inj] at h
    subst h
    norm_num
  · rw [Option.some_inj] at h
    subst h
    set ns := normalizeText sourceName with hns
    set nt := normalizeText target.name with hnt
    show (0.85 : ℚ) * (((min ns.length nt.length : ℕ) : ℚ) / ((max ns.length nt.length : ℕ) : ℚ)) + 0.15 ≤ 1
    have hM : (0 : ℚ) < ((max ns.length nt.length : ℕ) : ℚ) := by
      by_contra hM
      push_neg at hM
      have hz : ((max ns.length nt.length : ℕ) : ℚ) = 0 := le_antisymm hM (by positivity)
      rw [hz, div_zero] at h3
      norm_num at h3
    have hr : ((min ns.length nt.length : ℕ) : ℚ) / ((max ns.length nt.length : ℕ) : ℚ) ≤ 1 := by
      rw [div_le_one hM]
      exact_mod_cast min_le_max
    set r := ((min ns.length nt.length : ℕ) : ℚ) / ((max ns.length nt.length : ℕ) : ℚ)
    linarith
  · exact keywordStage_conf_le_one h
  · exact keywordStage_conf_le_one h

/-- C6: the scorer returns at most 5 candidates, sorted by descending confidence,
every one with confidence at least the caller's threshold and at most 1. -/
theorem findMatches_output_contract (sourceName : String)
    (targetTasks : List MatchableTask) (threshold : ℚ)
    (sourceDescription : Option String) :
    (findMatches sourceName targetTasks threshold sourceDescription).length ≤ 5 ∧
    List.Sorted (keyDesc (fun c : MatchCandidate => c.confidence))
      (findMatches sourceName targetTasks threshold sourceDescription) ∧
    ∀ c ∈ findMatches sourceName targetTasks threshold sourceDescription,
      threshold ≤ c.confidence ∧ c.confidence ≤ 1 := by
  refine ⟨?_, ?_, ?_⟩
  · rw [findMatches, List.length_take]
    exact min_le_left _ _
  · have hs : List.Sorted (keyDesc (fun c : MatchCandidate => c.confidence))
        (sortByKeyDesc (fun c => c.confidence)
          ((targetTasks.filterMap (scoreTarget sourceName sourceDescription)).filter
            (fun c => threshold ≤ c.confidence))) :=
      List.sorted_insertionSort _ _
    exact List.Pairwise.sublist (List.take_sublist _ _) hs
  · intro c hc
    rw [findMatches] at hc
    have hc1 := List.mem_of_mem_take hc
    rw [sortByKeyDesc, List.mem_insertionSort, List.mem_filter] at hc1
    obtain ⟨hmem, hth⟩ := hc1
    refine ⟨by simpa using hth, ?_⟩
    rw [List.mem_filterMap] at hmem
    obtain ⟨t, -, ht⟩ := hmem
    exact scoreTarget_conf_le_one ht


/-! ## C3: the worked "Fix login bug" example -/

lemma keywordOverlapScore_eval (t1 t2 : String) (k1 k2 : List String) (o u : ℕ)
    (h1 : extractKeywords t1 = k1) (h2 : extractKeywords t2 = k2)
    (hk1 : k1.length ≠ 0) (hk2 : k2.length ≠ 0)
    (ho : (k1.filter (fun kw => k2.contains kw)).length = o)
    (hu : ((k1 ++ k2).dedup).length = u) :
    keywordOverlapScore t1 t2 = (o : ℚ) / (u : ℚ) := by
  unfold keywordOverlapScore
  rw [h1, h2, if_neg (by simp [hk1, hk2]), ho, hu]

lemma scoreTarget_login_a :
    scoreTarget "Fix login bug" none
      { gid := "a", name := "Fix login bug", description := none } = some cexA := by
  simp only [scoreTarget]
  rw [if_pos (by decide)]
  rfl

lemma toString_mathRound_half : toString (mathRound ((1 / 2 : ℚ) * 100)) = "50" := by
  rw [show mathRound ((1 / 2 : ℚ) * 100) = 50 from by unfold mathRound; norm_num]
  rfl

lemma scoreTarget_login_b :
    scoreTarget "Fix login bug" none
      { gid := "b", name := "Update login page", description := none } = some cexB := by
  simp only [scoreTarget, scoreTargetKeywordStage]
  rw [if_neg (by decide), if_neg (by decide)]
  rw [keywordOverlapScore_eval "Fix login bug" "Update login page" ["login"]
    ["login", "page"] 1 2 (by decide) (by decide) (by decide) (by decide) (by decide)
    (by decide)]
  rw [show ((1 : ℕ) : ℚ) / ((2 : ℕ) : ℚ) = 1 / 2 from by norm_num]
  rw [if_pos (by norm_num)]
  rw [Option.some_inj, cexB, MatchCandidate.mk.injEq]
  refine ⟨rfl, rfl, by norm_num, rfl, ?_⟩
  rw [toString_mathRound_half]
  decide

lemma scoreTarget_login_c :
    scoreTarget "Fix login bug" none
      { gid := "c", name := "Bug: login crash", description := none } = some cexC := by
  simp only [scoreTarget, scoreTargetKeywordStage]
  rw [if_neg (by decide), if_neg (by decide)]
  rw [keywordOverlapScore_eval "Fix login bug" "Bug: login crash" ["login"]
    ["login", "crash"] 1 2 (by decide) (by decide) (by decide) (by decide) (by decide)
    (by decide)]
  rw [show ((1 : ℕ) : ℚ) / ((2 : ℕ) : ℚ) = 1 / 2 from by norm_num]
  rw [if_pos (by norm_num)]
  rw [Option.some_inj, cexC, MatchCandidate.mk.injEq]
  refine ⟨rfl, rfl, by norm_num, rfl, ?_⟩
  rw [toString_mathRound_half]
  decide

/-- Full evaluation of the scorer on the spec's worked example, for any threshold
in the default 0.5–0.7 band. -/
lemma findMatches_login_eval (th : ℚ) (h1 : 1 / 2 ≤ th) (h2 : th ≤ 7 / 10) :
    findMatches "Fix login bug" loginTargets th none = [cexA, cexB, cexC] := by
  have hA : th ≤ cexA.confidence := by rw [cexA]; norm_num; linarith
  have hB : th ≤ cexB.confidence := by rw [cexB]; norm_num; linarith
  have hC : th ≤ cexC.confidence := by rw [cexC]; norm_num; linarith
  unfold findMatches loginTargets
  rw [List.filterMap_cons, scoreTarget_login_a]
  rw [List.filterMap_cons, scoreTarget_login_b]
  rw [List.filterMap_cons, scoreTarget_login_c]
  rw [List.filterMap_nil]
  rw [List.filter_cons_of_pos (by simpa using hA)]
  rw [List.filter_cons_of_pos (by simpa using hB)]
  rw [List.filter_cons_of_pos (by simpa using hC)]
  rw [List.filter_nil]
  rw [sortByKeyDesc]
  have hBC : List.orderedInsert (keyDesc (fun c : MatchCandidate => c.confidence))
      cexB [cexC] = [cexB, cexC] := by
    simp only [List.orderedInsert]
    rw [if_pos (show keyDesc (fun c : MatchCandidate => c.confidence) cexB cexC from by
      unfold keyDesc cexB cexC; norm_num)]
  have hABC : List.orderedInsert (keyDesc (fun c : MatchCandidate => c.confidence))
      cexA [cexB, cexC] = [cexA, cexB, cexC] := by
    simp only [List.orderedInsert]
    rw [if_pos (show keyDesc (fun c : MatchCandidate => c.confidence) cexA cexB from by
      unfold keyDesc cexA cexB; norm_num)]
  show ((([cexA, cexB, cexC] : List MatchCandidate).insertionSort
    (keyDesc (fun c => c.confidence))).take 5) = [cexA, cexB, cexC]
  simp only [List.insertionSort, List.orderedInsert_nil]
  rw [hBC, hABC]
  rfl

/-- C3 (counterexample): with the default threshold the "Update login page" target
is not omitted — the scorer returns a candidate for it. -/
theorem scorer_login_counterexample :
    ∃ c ∈ findMatches "Fix login bug" loginTargets (3 / 5) none, c.gid = "b" := by
  rw [findMatches_login_eval (3 / 5) (by norm_num) (by norm_num)]
  exact ⟨cexB, by simp, rfl⟩

/-- C3 (amended): on the worked example the scorer returns candidates for all three
targets: confidence 1.0 "exact" for "Fix login bug", and confidence 0.8 "fuzzy"
(keyword-overlap rule, Jaccard 1/2) for both "Update login page" and
"Bug: login crash" — the latter inside the claimed [0.3, 0.9) band. -/
theorem scorer_login_example (th : ℚ) (h1 : 1 / 2 ≤ th) (h2 : th ≤ 7 / 10) :
    (findMatches "Fix login bug" loginTargets th none).map
      (fun c => (c.gid, c.confidence, c.matchMethod)) =
      [("a", (1 : ℚ), MatchMethod.exact), ("b", (0.8 : ℚ), MatchMethod.fuzzy),
       ("c", (0.8 : ℚ), MatchMethod.fuzzy)] := by
  rw [findMatches_login_eval th h1 h2]
  rfl

/-- C3 witness: the amended theorem at the default threshold 0.6. -/
theorem scorer_login_example_witness :
    ((1 / 2 : ℚ) ≤ 3 / 5 ∧ (3 / 5 : ℚ) ≤ 7 / 10) ∧
    (findMatches "Fix login bug" loginTargets (3 / 5) none).map
      (fun c => (c.gid, c.confidence, c.matchMethod)) =
      [("a", (1 : ℚ), MatchMethod.exact), ("b", (0.8 : ℚ), MatchMethod.fuzzy),
       ("c", (0.8 : ℚ), MatchMethod.fuzzy)] :=
  ⟨⟨by norm_num, by norm_num⟩, scorer_login_example (3 / 5) (by norm_num) (by norm_num)⟩


/-! ## C2: one-to-one output of the greedy assignment -/

lemma gid_of_keywordStage {sourceName : String} {sourceDescription : Option String}
    {target : MatchableTask} {c : MatchCandidate}
    (h : scoreTargetKeywordStage sourceName sourceDescription target = some c) :
    c.gid = target.gid := by
  simp only [scoreTargetKeywordStage] at h
  split_ifs at h
  all_goals
    first
      | exact Option.noConfusion h
      | (rw [Option.some_inj] at h; subst h; rfl)

lemma gid_of_scoreTarget {sourceName : String} {sourceDescription : Option String}
    {target : MatchableTask} {c : MatchCandidate}
    (h : scoreTarget sourceName sourceDescription target = some c) :
    c.gid = target.gid := by
  simp only [scoreTarget] at h
  split_ifs at h
  all_goals
    first
      | exact gid_of_keywordStage h
      | (rw [Option.some_inj] at h; subst h; rfl)

lemma mem_of_bestAbove {l : List MatchCandidate} {th : ℚ} {c : MatchCandidate}
    (h : bestAbove l th = some c) : c ∈ l := by
  cases l with
  | nil => exact absurd h (by simp [bestAbove])
  | cons c0 rest =>
    simp only [bestAbove] at h
    split_ifs at h
    rw [Option.some_inj] at h
    rw [← h]
    exact List.mem_cons_self _ _

lemma gid_of_getBestMatch {fz : String → List MatchableTask → ℚ → List MatchCandidate}
    (hfz : FuzzySound fz) {sourceName : String} {ts : List MatchableTask} {th : ℚ}
    {d : Option String} {c : MatchCandidate}
    (h : getBestMatch fz sourceName ts th d = some c) : ∃ t ∈ ts, c.gid = t.gid := by
  unfold getBestMatch at h
  cases hb : bestAbove (findMatches sourceName ts th d) th with
  | some c0 =>
    rw [hb, Option.some_inj] at h
    subst h
    have hc0 := mem_of_bestAbove hb
    rw [findMatches] at hc0
    have hc1 := List.mem_of_mem_take hc0
    rw [sortByKeyDesc, List.mem_insertionSort, List.mem_filter] at hc1
    obtain ⟨hmem, -⟩ := hc1
    rw [List.mem_filterMap] at hmem
    obtain ⟨t, ht, hsc⟩ := hmem
    exact ⟨t, ht, gid_of_scoreTarget hsc⟩
  | none =>
    rw [hb] at h
    have hc := mem_of_bestAbove h
    exact hfz sourceName ts th c hc

/-- Loop invariant: every suggestion's target gid is fresh relative to the used
set, and the emitted target gids are pairwise distinct. -/
lemma autoMatchLoop_target_distinct
    {fz : String → List MatchableTask → ℚ → List MatchCandidate}
    (hfz : FuzzySound fz) :
    ∀ (rest : List PlaneTaskIn) (matchable : List MatchableTask)
      (lp used : List String) (mc : ℚ),
      (∀ s ∈ autoMatchLoop fz rest matchable lp used mc, s.asanaTaskGid ∉ used) ∧
      List.Pairwise (fun s1 s2 => s1.asanaTaskGid ≠ s2.asanaTaskGid)
        (autoMatchLoop fz rest matchable lp used mc) := by
  intro rest
  induction rest with
  | nil => intro matchable lp used mc; simp [autoMatchLoop]
  | cons p rest ih =>
    intro matchable lp used mc
    simp only [autoMatchLoop]
    split_ifs with hlp hav
    · exact ih matchable lp used mc
    · exact ih matchable lp used mc
    · cases hbm : getBestMatch fz p.name
          (matchable.filter (fun t => !(used.contains t.gid))) mc p.description with
      | none => exact ih matchable lp used mc
      | some bestMatch =>
        obtain ⟨t, ht, hgid⟩ := gid_of_getBestMatch hfz hbm
        rw [List.mem_filter] at ht
        have hfresh : bestMatch.gid ∉ used := by
          rw [hgid]
          simpa [List.contains] using ht.2
        constructor
        · intro s hs
          rw [List.mem_cons] at hs
          rcases hs with rfl | hs
          · exact hfresh
          · have := (ih matchable lp (bestMatch.gid :: used) mc).1 s hs
            intro hmem
            exact this (List.mem_cons_of_mem _ hmem)
        · rw [List.pairwise_cons]
          constructor
          · intro s hs
            have := (ih matchable lp (bestMatch.gid :: used) mc).1 s hs
            intro heq
            exact this (by rw [← heq]; exact List.mem_cons_self _ _)
          · exact (ih matchable lp (bestMatch.gid :: used) mc).2

/-- Loop invariant: suggestions carry source ids from the remaining list, one per
processed source record. -/
lemma autoMatchLoop_source_ids
    (fz : String → List MatchableTask → ℚ → List MatchCandidate) :
    ∀ (rest : List PlaneTaskIn) (matchable : List MatchableTask)
      (lp used : List String) (mc : ℚ),
      ∀ s ∈ autoMatchLoop fz rest matchable lp used mc,
        s.planeTaskId ∈ rest.map (fun t => t.id) := by
  intro rest
  induction rest with
  | nil => intro matchable lp used mc; simp [autoMatchLoop]
  | cons p rest ih =>
    intro matchable lp used mc s hs
    simp only [autoMatchLoop] at hs
    split_ifs at hs with hlp hav
    · exact List.mem_cons_of_mem _ (ih matchable lp used mc s hs)
    · exact List.mem_cons_of_mem _ (ih matchable lp used mc s hs)
    · cases hbm : getBestMatch fz p.name
          (matchable.filter (fun t => !(used.contains t.gid))) mc p.description with
      | none =>
        rw [hbm] at hs
        exact List.mem_cons_of_mem _ (ih matchable lp used mc s hs)
      | some bestMatch =>
        rw [hbm] at hs
        rw [List.mem_cons] at hs
        rcases hs with rfl | hs
        · exact List.mem_cons_self _ _
        · exact List.mem_cons_of_mem _
            (ih matchable lp (bestMatch.gid :: used) mc s hs)

lemma autoMatchLoop_source_distinct
    (fz : String → List MatchableTask → ℚ → List MatchCandidate) :
    ∀ (rest : List PlaneTaskIn) (matchable : List MatchableTask)
      (lp used : List String) (mc : ℚ),
      (rest.map (fun t => t.id)).Nodup →
      List.Pairwise (fun s1 s2 => s1.planeTaskId ≠ s2.planeTaskId)
        (autoMatchLoop fz rest matchable lp used mc) := by
  intro rest
  induction rest with
  | nil => intro matchable lp used mc _; simp [autoMatchLoop]
  | cons p rest ih =>
    intro matchable lp used mc hnd
    rw [List.map_cons, List.nodup_cons] at hnd
    obtain ⟨hp, hnd'⟩ := hnd
    simp only [autoMatchLoop]
    split_ifs with hlp hav
    · exact ih matchable lp used mc hnd'
    · exact ih matchable lp used mc hnd'
    · cases hbm : getBestMatch fz p.name
          (matchable.filter (fun t => !(used.contains t.gid))) mc p.description with
      | none => exact ih matchable lp used mc hnd'
      | some bestMatch =>
        rw [List.pairwise_cons]
        constructor
        · intro s hs heq
          have := autoMatchLoop_source_ids fz rest matchable lp
            (bestMatch.gid :: used) mc s hs
          rw [← heq] at this
          exact hp this
        · exact ih matchable lp (bestMatch.gid :: used) mc hnd'

/-- C2 (amended): in one `autoMatchAllTasks` call no target identifier is ever
suggested twice (for any inputs, including 0 sources, 0 targets and more sources
than targets), and — provided the source records carry distinct identifiers, as
record identifiers are unique within their system — no source identifier appears
in two suggestions either. -/
theorem autoMatch_one_to_one
    (fz : String → List MatchableTask → ℚ → List MatchCandidate)
    (hfz : FuzzySound fz) (planeTasks : List PlaneTaskIn)
    (asanaTasks : List AsanaTaskIn) (lp la : List String) (mc : ℚ)
    (hsrc : (planeTasks.map (fun t => t.id)).Nodup) :
    List.Pairwise (fun s1 s2 => s1.asanaTaskGid ≠ s2.asanaTaskGid)
      (autoMatchAllTasks fz planeTasks asanaTasks lp la mc) ∧
    List.Pairwise (fun s1 s2 => s1.planeTaskId ≠ s2.planeTaskId)
      (autoMatchAllTasks fz planeTasks asanaTasks lp la mc) := by
  unfold autoMatchAllTasks
  rw [sortByKeyDesc]
  constructor
  · rw [(List.perm_insertionSort _ _).pairwise_iff
      (fun {s1 s2 : SuggestedMatch} (h : s1.asanaTaskGid ≠ s2.asanaTaskGid) => Ne.symm h)]
    exact (autoMatchLoop_target_distinct hfz planeTasks _ lp la mc).2
  · rw [(List.perm_insertionSort _ _).pairwise_iff
      (fun {s1 s2 : SuggestedMatch} (h : s1.planeTaskId ≠ s2.planeTaskId) => Ne.symm h)]
    exact autoMatchLoop_source_distinct fz planeTasks _ lp la mc hsrc


lemma scoreTarget_hello1 : scoreTarget "hello world" none helloM1 = some helloC1 := by
  simp only [scoreTarget]
  rw [if_pos (by decide)]
  rfl

lemma scoreTarget_hello2 : scoreTarget "hello world" none helloM2 = some helloC2 := by
  simp only [scoreTarget]
  rw [if_pos (by decide)]
  rfl

lemma findMatches_hello12 :
    findMatches "hello world" [helloM1, helloM2] (3 / 5) none = [helloC1, helloC2] := by
  have hA : (3 / 5 : ℚ) ≤ helloC1.confidence := by rw [helloC1]; norm_num
  have hB : (3 / 5 : ℚ) ≤ helloC2.confidence := by rw [helloC2]; norm_num
  unfold findMatches
  rw [List.filterMap_cons, scoreTarget_hello1, List.filterMap_cons, scoreTarget_hello2,
    List.filterMap_nil]
  rw [List.filter_cons_of_pos (by simpa using hA),
    List.filter_cons_of_pos (by simpa using hB), List.filter_nil]
  rw [sortByKeyDesc]
  simp only [List.insertionSort, List.orderedInsert_nil]
  rw [show List.orderedInsert (keyDesc (fun c : MatchCandidate => c.confidence))
      helloC1 [helloC2] = [helloC1, helloC2] from by
    simp only [List.orderedInsert]
    rw [if_pos (show keyDesc (fun c : MatchCandidate => c.confidence) helloC1 helloC2 from by
      unfold keyDesc helloC1 helloC2; norm_num)]]
  rfl

lemma findMatches_hello2 :
    findMatches "hello world" [helloM2] (3 / 5) none = [helloC2] := by
  have hB : (3 / 5 : ℚ) ≤ helloC2.confidence := by rw [helloC2]; norm_num
  unfold findMatches
  rw [List.filterMap_cons, scoreTarget_hello2, List.filterMap_nil]
  rw [List.filter_cons_of_pos (by simpa using hB), List.filter_nil]
  rw [sortByKeyDesc]
  simp only [List.insertionSort, List.orderedInsert_nil]
  rfl

lemma getBestMatch_hello12 :
    getBestMatch fzNone "hello world" [helloM1, helloM2] (3 / 5) none = some helloC1 := by
  unfold getBestMatch
  rw [findMatches_hello12]
  simp only [bestAbove]
  rw [if_pos (show (3 / 5 : ℚ) ≤ helloC1.confidence from by rw [helloC1]; norm_num)]

lemma getBestMatch_hello2 :
    getBestMatch fzNone "hello world" [helloM2] (3 / 5) none = some helloC2 := by
  unfold getBestMatch
  rw [findMatches_hello2]
  simp only [bestAbove]
  rw [if_pos (show (3 / 5 : ℚ) ≤ helloC2.confidence from by rw [helloC2]; norm_num)]

/-- Full evaluation of the greedy assignment on a source list with a duplicated
identifier: both copies get matched, to two different targets. -/
lemma autoMatch_dup_eval :
    autoMatchAllTasks fzNone helloPlaneDup helloAsana [] [] (3 / 5) =
      [helloS1, helloS2] := by
  unfold autoMatchAllTasks helloPlaneDup helloAsana
  rw [show (List.filter (fun t => !(List.contains ([] : List String) t.gid))
      [({ gid := "g1", name := "hello world", notes := none } : AsanaTaskIn),
       { gid := "g2", name := "hello world", notes := none }]).map
      (fun t => ({ gid := t.gid, name := t.name, description := t.notes } : MatchableTask)) =
      [helloM1, helloM2] from by decide]
  have h1 : autoMatchLoop fzNone
      [{ id := "a", name := "hello world", description := none }]
      [helloM1, helloM2] [] ["g1"] (3 / 5) = [helloS2] := by
    simp only [autoMatchLoop]
    rw [if_neg (by decide)]
    rw [show List.filter (fun t => !(List.contains ["g1"] t.gid)) [helloM1, helloM2] =
      [helloM2] from by decide]
    rw [if_neg (by decide)]
    rw [getBestMatch_hello2]
    rfl
  have h0 : autoMatchLoop fzNone
      [({ id := "a", name := "hello world", description := none } : PlaneTaskIn),
       { id := "a", name := "hello world", description := none }]
      [helloM1, helloM2] [] [] (3 / 5) = [helloS1, helloS2] := by
    rw [autoMatchLoop]
    rw [if_neg (by decide)]
    rw [show List.filter (fun t => !(List.contains ([] : List String) t.gid))
      [helloM1, helloM2] = [helloM1, helloM2] from by decide]
    rw [if_neg (by decide)]
    rw [getBestMatch_hello12]
    show helloS1 :: autoMatchLoop fzNone
      [{ id := "a", name := "hello world", description := none }]
      [helloM1, helloM2] [] ["g1"] (3 / 5) = [helloS1, helloS2]
    rw [h1]
  show sortByKeyDesc (fun s : SuggestedMatch => s.confidence)
    (autoMatchLoop fzNone
      [({ id := "a", name := "hello world", description := none } : PlaneTaskIn),
       { id := "a", name := "hello world", description := none }]
      [helloM1, helloM2] [] [] (3 / 5)) = [helloS1, helloS2]
  rw [h0, sortByKeyDesc]
  simp only [List.insertionSort, List.orderedInsert_nil]
  rw [show List.orderedInsert (keyDesc (fun s : SuggestedMatch => s.confidence))
      helloS1 [helloS2] = [helloS1, helloS2] from by
    simp only [List.orderedInsert]
    rw [if_pos (show keyDesc (fun s : SuggestedMatch => s.confidence) helloS1 helloS2 from by
      unfold keyDesc helloS1 helloS2; norm_num)]]

/-- C2 (counterexample): when the source list carries the same identifier twice,
`autoMatchAllTasks` emits two SuggestedMatch entries with that same source
identifier, refuting the claim for arbitrary input lists. -/
theorem autoMatch_duplicate_source_counterexample :
    ¬ List.Pairwise (fun s1 s2 => s1.planeTaskId ≠ s2.planeTaskId)
      (autoMatchAllTasks fzNone helloPlaneDup helloAsana [] [] (3 / 5)) := by
  rw [autoMatch_dup_eval]
  intro hpw
  rw [List.pairwise_cons] at hpw
  exact hpw.1 helloS2 (List.mem_singleton.mpr rfl) rfl

/-- C2 witness: the amended theorem applied at a concrete sound fallback scorer
and a duplicate-free source list. -/
theorem autoMatch_one_to_one_witness :
    FuzzySound fzNone ∧
    ((([{ id := "x", name := "alpha", description := none }] : List PlaneTaskIn).map
      (fun t => t.id)).Nodup) ∧
    (List.Pairwise (fun s1 s2 => s1.asanaTaskGid ≠ s2.asanaTaskGid)
      (autoMatchAllTasks fzNone [{ id := "x", name := "alpha", description := none }]
        [] [] [] (3 / 5)) ∧
    List.Pairwise (fun s1 s2 => s1.planeTaskId ≠ s2.planeTaskId)
      (autoMatchAllTasks fzNone [{ id := "x", name := "alpha", description := none }]
        [] [] [] (3 / 5))) :=
  ⟨fun _ _ _ c hc => absurd hc (List.not_mem_nil c),
   by decide,
   autoMatch_one_to_one fzNone (fun _ _ _ c hc => absurd hc (List.not_mem_nil c))
     [{ id := "x", name := "alpha", description := none }] [] [] [] (3 / 5) (by decide)⟩


/-! ## Shared machinery for the snapshot round-trip (C7) and idempotence (C1) -/

lemma pairPlaneChanges_eq_nil {tm : TaskMapping} {pi : PlaneIssue} {a : AsanaTask}
    {s : TaskSnapshot} {cnt : Option ℕ}
    (h1 : s.planeName = some pi.name)
    (h2 : s.planeDescription.getD "" = pi.descriptionStripped.getD "")
    (h3 : s.planeState = jsStrOrNull pi.stateName)
    (h4 : ∀ c, cnt = some c → s.planeCommentsCount = c) :
    pairPlaneChanges tm pi a s cnt = [] := by
  simp only [pairPlaneChanges]
  rw [if_neg (by simp [h1]), if_neg (by simp [h2]), if_neg (by simp [h3])]
  cases hc : cnt with
  | none => rfl
  | some c => simp [h4 c hc]

lemma pairPlaneChanges_nil_elim {tm : TaskMapping} {pi : PlaneIssue} {a : AsanaTask}
    {s : TaskSnapshot} {cnt : Option ℕ} (h : pairPlaneChanges tm pi a s cnt = []) :
    s.planeName = some pi.name ∧
    s.planeDescription.getD "" = pi.descriptionStripped.getD "" ∧
    s.planeState = jsStrOrNull pi.stateName ∧
    ∀ c, cnt = some c → s.planeCommentsCount = c := by
  simp only [pairPlaneChanges, List.append_eq_nil] at h
  obtain ⟨⟨⟨ha1, ha2⟩, ha3⟩, ha4⟩ := h
  refine ⟨?_, ?_, ?_, ?_⟩
  · by_cases hc : s.planeName = some pi.name
    · exact hc
    · rw [if_pos hc] at ha1; exact absurd ha1 (by simp)
  · by_cases hc : s.planeDescription.getD "" = pi.descriptionStripped.getD ""
    · exact hc
    · rw [if_pos hc] at ha2; exact absurd ha2 (by simp)
  · by_cases hc : s.planeState = jsStrOrNull pi.stateName
    · exact hc
    · rw [if_pos hc] at ha3; exact absurd ha3 (by simp)
  · intro c hc
    simp only [hc] at ha4
    by_cases hne : s.planeCommentsCount = c
    · exact hne
    · rw [if_pos hne] at ha4; exact absurd ha4 (by simp)

lemma pairAsanaChanges_eq_nil {tm : TaskMapping} {pi : PlaneIssue} {a : AsanaTask}
    {s : TaskSnapshot} {cnt : Option ℕ}
    (h1 : s.asanaName = some a.name)
    (h2 : s.asanaDescription.getD "" = a.notes.getD "")
    (h3 : s.asanaCompleted = some a.completed)
    (h4 : ∀ c, cnt = some c → s.asanaCommentsCount = c) :
    pairAsanaChanges tm pi a s cnt = [] := by
  simp only [pairAsanaChanges]
  rw [if_neg (by simp [h1]), if_neg (by simp [h2]), if_neg (by simp [h3])]
  cases hc : cnt with
  | none => rfl
  | some c => simp [h4 c hc]

lemma pairAsanaChanges_nil_elim {tm : TaskMapping} {pi : PlaneIssue} {a : AsanaTask}
    {s : TaskSnapshot} {cnt : Option ℕ} (h : pairAsanaChanges tm pi a s cnt = []) :
    s.asanaName = some a.name ∧
    s.asanaDescription.getD "" = a.notes.getD "" ∧
    s.asanaCompleted = some a.completed ∧
    ∀ c, cnt = some c → s.asanaCommentsCount = c := by
  simp only [pairAsanaChanges, List.append_eq_nil] at h
  obtain ⟨⟨⟨ha1, ha2⟩, ha3⟩, ha4⟩ := h
  refine ⟨?_, ?_, ?_, ?_⟩
  · by_cases hc : s.asanaName = some a.name
    · exact hc
    · rw [if_pos hc] at ha1; exact absurd ha1 (by simp)
  · by_cases hc : s.asanaDescription.getD "" = a.notes.getD ""
    · exact hc
    · rw [if_pos hc] at ha2; exact absurd ha2 (by simp)
  · by_cases hc : s.asanaCompleted = some a.completed
    · exact hc
    · rw [if_pos hc] at ha3; exact absurd ha3 (by simp)
  · intro c hc
    simp only [hc] at ha4
    by_cases hne : s.asanaCommentsCount = c
    · exact hne
    · rw [if_pos hne] at ha4; exact absurd ha4 (by simp)

lemma find?_id_eq {linked : List TaskMapping}
    (hnd : (linked.map (fun t => t.id)).Nodup) {tm : TaskMapping}
    (htm : tm ∈ linked) : linked.find? (fun t => t.id == tm.id) = some tm := by
  cases hf : linked.find? (fun t => t.id == tm.id) with
  | none =>
    have := List.find?_eq_none.mp hf tm htm
    simp at this
  | some tm1 =>
    have h1 : tm1.id = tm.id := by
      have := List.find?_some hf
      simpa using this
    have h2 : tm1 ∈ linked := List.mem_of_find?_eq_some hf
    rw [List.inj_on_of_nodup_map hnd h2 htm h1]

lemma upsertOne_apply_self (w : World)
    (counts : (String → Option ℕ) × (String → Option ℕ)) (store0 : SnapStore)
    {linked : List TaskMapping} (hnd : (linked.map (fun t => t.id)).Nodup)
    {tm : TaskMapping} (htm : tm ∈ linked) {p g : String} {pi : PlaneIssue}
    {a : AsanaTask} (hp : tm.planeIssueId = some p) (hg : tm.asanaTaskGid = some g)
    (hpi : planeIssueMap w p = some pi) (ha : asanaTaskMap w g = some a)
    (st : SnapStore) :
    upsertOne w counts store0 linked st tm.id tm.id =
      some (mkSnapshot pi a
        ((counts.1 p).getD (((store0 tm.id).map (fun s => s.planeCommentsCount)).getD 0))
        ((counts.2 g).getD (((store0 tm.id).map (fun s => s.asanaCommentsCount)).getD 0))) := by
  unfold upsertOne
  rw [find?_id_eq hnd htm]
  simp only [hp, hg, hpi, ha]
  rw [if_pos (by simp)]

lemma foldl_upsertOne_mem (w : World)
    (counts : (String → Option ℕ) × (String → Option ℕ)) (store0 : SnapStore)
    {linked : List TaskMapping} (hnd : (linked.map (fun t => t.id)).Nodup)
    {tm : TaskMapping} (htm : tm ∈ linked) {p g : String} {pi : PlaneIssue}
    {a : AsanaTask} (hp : tm.planeIssueId = some p) (hg : tm.asanaTaskGid = some g)
    (hpi : planeIssueMap w p = some pi) (ha : asanaTaskMap w g = some a) :
    ∀ (ids : List String) (st : SnapStore), tm.id ∈ ids →
      (ids.foldl (upsertOne w counts store0 linked) st) tm.id =
        some (mkSnapshot pi a
          ((counts.1 p).getD (((store0 tm.id).map (fun s => s.planeCommentsCount)).getD 0))
          ((counts.2 g).getD (((store0 tm.id).map (fun s => s.asanaCommentsCount)).getD 0))) := by
  intro ids
  induction ids with
  | nil => intro st hmem; exact absurd hmem (List.not_mem_nil _)
  | cons i rest ih =>
    intro st hmem
    show (rest.foldl (upsertOne w counts store0 linked)
      (upsertOne w counts store0 linked st i)) tm.id = _
    by_cases hrest : tm.id ∈ rest
    · exact ih _ hrest
    · have hi : i = tm.id := by
        rcases List.mem_cons.mp hmem with h | h
        · exact h.symm
        · exact absurd h hrest
      subst hi
      rw [foldl_upsertOne_not_mem w counts store0 linked rest _ _ hrest]
      exact upsertOne_apply_self w counts store0 hnd htm hp hg hpi ha st

/-- The snapshot store after one `detectChanges` pass, at the key of a fully-linked
mapping present in both live listings. -/
lemma detect_store_apply (w : World) (now : ℤ) (store : SnapStore)
    (ms : List TaskMapping)
    (hnd : ((linkedMappings ms).map (fun t => t.id)).Nodup) {tm : TaskMapping}
    (htm : tm ∈ linkedMappings ms) {p g : String} {pi : PlaneIssue} {a : AsanaTask}
    (hp : tm.planeIssueId = some p) (hg : tm.asanaTaskGid = some g)
    (hpi : planeIssueMap w p = some pi) (ha : asanaTaskMap w g = some a) :
    (detectChanges w now store ms).store tm.id =
      if tm.id ∈ detectChangedIds w now store (linkedMappings ms)
      then some (mkSnapshot pi a
        (((detectCounts w store (linkedMappings ms)).1 p).getD
          (((store tm.id).map (fun s => s.planeCommentsCount)).getD 0))
        (((detectCounts w store (linkedMappings ms)).2 g).getD
          (((store tm.id).map (fun s => s.asanaCommentsCount)).getD 0)))
      else store tm.id := by
  show DetectResult.store (detectChanges w now store ms) tm.id = _
  simp only [detectChanges]
  by_cases hempty : (detectAllChanges w now store (linkedMappings ms)).isEmpty = true
  · rw [if_pos hempty, if_neg]
    intro hmem
    rw [detectChangedIds, List.isEmpty_iff.mp hempty] at hmem
    simp at hmem
  · rw [if_neg hempty]
    by_cases hmem : tm.id ∈ detectChangedIds w now store (linkedMappings ms)
    · rw [if_pos hmem]
      exact foldl_upsertOne_mem w _ store hnd htm hp hg hpi ha _ store hmem
    · rw [if_neg hmem]
      exact foldl_upsertOne_not_mem w _ store (linkedMappings ms) _ store tm.id hmem

/-- A task id among the changed ids of a pass had a snapshot at the start of the
pass. -/
lemma mem_detectChangedIds_elim (w : World) (now : ℤ) (store : SnapStore)
    {linked : List TaskMapping} (hnd : (linked.map (fun t => t.id)).Nodup)
    {tm : TaskMapping} (htm : tm ∈ linked)
    (h : tm.id ∈ detectChangedIds w now store linked) : (store tm.id).isSome := by
  rw [detectChangedIds, List.mem_dedup, List.mem_map] at h
  obtain ⟨c, hc, hcid⟩ := h
  rw [detectAllChanges] at hc
  obtain ⟨-, tm1, htm1, hid1, hsome⟩ :=
    mem_allChanges_elim w (detectCounts w store linked) now store linked c hc
  have h1 : tm1.id = tm.id := by rw [← hid1, hcid]
  rw [List.inj_on_of_nodup_map hnd htm1 htm h1] at hsome
  exact hsome


/-! ## C7: takeSnapshot then detectChanges reports nothing -/

/-- If every fully-linked pair present in both listings has a snapshot agreeing
with the live records (the comment baselines agreeing whenever the pass fetches
a count), the detection pass reports no changes at all. -/
lemma detect_nil_of_good (w : World) (now : ℤ) (store : SnapStore)
    (ms : List TaskMapping)
    (H : ∀ tm ∈ linkedMappings ms, ∀ p g pi a,
      tm.planeIssueId = some p → tm.asanaTaskGid = some g →
      planeIssueMap w p = some pi → asanaTaskMap w g = some a →
      ∃ s, store tm.id = some s ∧
        s.planeName = some pi.name ∧
        s.planeDescription.getD "" = pi.descriptionStripped.getD "" ∧
        s.planeState = jsStrOrNull pi.stateName ∧
        (∀ c, (detectCounts w store (linkedMappings ms)).1 p = some c →
          s.planeCommentsCount = c) ∧
        s.asanaName = some a.name ∧
        s.asanaDescription.getD "" = a.notes.getD "" ∧
        s.asanaCompleted = some a.completed ∧
        (∀ c, (detectCounts w store (linkedMappings ms)).2 g = some c →
          s.asanaCommentsCount = c)) :
    (detectChanges w now store ms).planeChanges = [] ∧
    (detectChanges w now store ms).asanaChanges = [] := by
  constructor
  · show (linkedMappings ms).flatMap
      (pairPlaneOut w (detectCounts w store (linkedMappings ms)) now store) = []
    rw [List.flatMap_eq_nil_iff]
    intro tm htm
    cases hp : tm.planeIssueId with
    | none => simp [pairPlaneOut, hp]
    | some p =>
      cases hg : tm.asanaTaskGid with
      | none => simp [pairPlaneOut, hp, hg]
      | some g =>
        cases hpi : planeIssueMap w p with
        | none => simp [pairPlaneOut, hp, hg, hpi]
        | some pi =>
          cases ha : asanaTaskMap w g with
          | none => simp [pairPlaneOut, hp, hg, hpi, ha]
          | some a =>
            obtain ⟨s, hs, h1, h2, h3, h4, -, -, -, -⟩ := H tm htm p g pi a hp hg hpi ha
            rw [show pairPlaneOut w (detectCounts w store (linkedMappings ms)) now store tm =
                pairPlaneChanges tm pi a s
                  ((detectCounts w store (linkedMappings ms)).1 p) from by
              unfold pairPlaneOut
              simp only [hp, hg, hpi, ha, hs]]
            exact pairPlaneChanges_eq_nil h1 h2 h3 h4
  · show (linkedMappings ms).flatMap
      (pairAsanaOut w (detectCounts w store (linkedMappings ms)) store) = []
    rw [List.flatMap_eq_nil_iff]
    intro tm htm
    cases hp : tm.planeIssueId with
    | none => simp [pairAsanaOut, hp]
    | some p =>
      cases hg : tm.asanaTaskGid with
      | none => simp [pairAsanaOut, hp, hg]
      | some g =>
        cases hpi : planeIssueMap w p with
        | none => simp [pairAsanaOut, hp, hg, hpi]
        | some pi =>
          cases ha : asanaTaskMap w g with
          | none => simp [pairAsanaOut, hp, hg, hpi, ha]
          | some a =>
            obtain ⟨s, hs, -, -, -, -, h5, h6, h7, h8⟩ := H tm htm p g pi a hp hg hpi ha
            rw [show pairAsanaOut w (detectCounts w store (linkedMappings ms)) store tm =
                pairAsanaChanges tm pi a s
                  ((detectCounts w store (linkedMappings ms)).2 g) from by
              unfold pairAsanaOut
              simp only [hp, hg, hpi, ha, hs]]
            exact pairAsanaChanges_eq_nil h5 h6 h7 h8

lemma takeSnapshotStep_apply_ne (w : World)
    (counts : (String → Option ℕ) × (String → Option ℕ)) (st : SnapStore)
    (tm : TaskMapping) (k : String) (hk : k ≠ tm.id) :
    takeSnapshotStep w counts st tm k = st k := by
  cases hp : tm.planeIssueId with
  | none => simp [takeSnapshotStep, hp]
  | some p =>
    cases hg : tm.asanaTaskGid with
    | none => simp [takeSnapshotStep, hp, hg]
    | some g =>
      cases hpi : planeIssueMap w p with
      | none => simp [takeSnapshotStep, hp, hg, hpi]
      | some pi =>
        cases ha : asanaTaskMap w g with
        | none => simp [takeSnapshotStep, hp, hg, hpi, ha]
        | some a => simp [takeSnapshotStep, hp, hg, hpi, ha, hk]

lemma takeSnapshot_fold_frame (w : World)
    (counts : (String → Option ℕ) × (String → Option ℕ)) :
    ∀ (l : List TaskMapping) (st : SnapStore) (k : String),
      k ∉ l.map (fun t => t.id) →
      (l.foldl (takeSnapshotStep w counts) st) k = st k := by
  intro l
  induction l with
  | nil => intro st k _; rfl
  | cons tm rest ih =>
    intro st k hk
    rw [List.map_cons, List.mem_cons] at hk
    push_neg at hk
    show (rest.foldl (takeSnapshotStep w counts) (takeSnapshotStep w counts st tm)) k = st k
    rw [ih _ k hk.2, takeSnapshotStep_apply_ne w counts st tm k hk.1]

lemma takeSnapshot_fold_apply (w : World)
    (counts : (String → Option ℕ) × (String → Option ℕ)) :
    ∀ (l : List TaskMapping) (st : SnapStore) {tm : TaskMapping}, tm ∈ l →
      (l.map (fun t => t.id)).Nodup →
      ∀ {p g : String} {pi : PlaneIssue} {a : AsanaTask},
      tm.planeIssueId = some p → tm.asanaTaskGid = some g →
      planeIssueMap w p = some pi → asanaTaskMap w g = some a →
      (l.foldl (takeSnapshotStep w counts) st) tm.id =
        some (mkSnapshot pi a ((counts.1 p).getD 0) ((counts.2 g).getD 0)) := by
  intro l
  induction l with
  | nil => intro st tm htm; exact absurd htm (List.not_mem_nil _)
  | cons tm1 rest ih =>
    intro st tm htm hnd p g pi a hp hg hpi ha
    rw [List.map_cons, List.nodup_cons] at hnd
    obtain ⟨hid1, hnd'⟩ := hnd
    show (rest.foldl (takeSnapshotStep w counts) (takeSnapshotStep w counts st tm1)) tm.id = _
    rcases List.mem_cons.mp htm with rfl | hrest
    · rw [takeSnapshot_fold_frame w counts rest _ tm.id hid1]
      unfold takeSnapshotStep
      simp only [hp, hg, hpi, ha]
      rw [if_pos (by simp)]
    · exact ih _ hrest hnd' hp hg hpi ha

/-- C7: `takeSnapshot` immediately followed by `detectChanges` against the same
remote state yields zero change records, for every pair. -/
theorem snapshot_roundtrip (w : World) (now : ℤ) (store : SnapStore)
    (ms : List TaskMapping) (hnd : (ms.map (fun t => t.id)).Nodup) :
    (detectChanges w now (takeSnapshot w store ms) ms).planeChanges = [] ∧
    (detectChanges w now (takeSnapshot w store ms) ms).asanaChanges = [] := by
  have hndl : ((linkedMappings ms).map (fun t => t.id)).Nodup :=
    hnd.sublist (List.Sublist.map _ (List.filter_sublist ms))
  apply detect_nil_of_good
  intro tm htm p g pi a hp hg hpi ha
  have hmem : toCPair tm ∈ tasksToFetch none ((linkedMappings ms).map toCPair) := by
    unfold tasksToFetch
    exact List.mem_map_of_mem toCPair htm
  have hts : takeSnapshot w store ms tm.id =
      some (mkSnapshot pi a
        (((fetchCommentCountsBatched w none ((linkedMappings ms).map toCPair)).1 p).getD 0)
        (((fetchCommentCountsBatched w none ((linkedMappings ms).map toCPair)).2 g).getD 0)) := by
    show ((linkedMappings ms).foldl
      (takeSnapshotStep w (fetchCommentCountsBatched w none ((linkedMappings ms).map toCPair)))
      store) tm.id = _
    exact takeSnapshot_fold_apply w _ (linkedMappings ms) store htm hndl hp hg hpi ha
  have hv1 : (fetchCommentCountsBatched w none ((linkedMappings ms).map toCPair)).1 p =
      some ((w.planeComments p).getD 0) := by
    rw [fetchCommentCountsBatched_fst]
    rw [if_pos ⟨⟨toCPair tm, hmem, hp⟩, rfl⟩]
  have hv2 : (fetchCommentCountsBatched w none ((linkedMappings ms).map toCPair)).2 g =
      some ((w.asanaComments g).getD 0) := by
    rw [fetchCommentCountsBatched_snd]
    rw [if_pos ⟨⟨toCPair tm, hmem, hg⟩, rfl⟩]
  refine ⟨_, hts, rfl, by simp [mkSnapshot], rfl, ?_, rfl, by simp [mkSnapshot], rfl, ?_⟩
  · intro c hc
    rw [detectCounts_fst] at hc
    by_cases hm : p ∈ modifiedPlaneIds w (takeSnapshot w store ms) (linkedMappings ms)
    · rw [if_pos hm, Option.some_inj] at hc
      show (mkSnapshot pi a _ _).planeCommentsCount = c
      rw [← hc, mkSnapshot, hv1]
      rfl
    · rw [if_neg hm] at hc
      exact Option.noConfusion hc
  · intro c hc
    rw [detectCounts_snd] at hc
    by_cases hm : g ∈ asanaIdsToCheck w (takeSnapshot w store ms) (linkedMappings ms)
    · rw [if_pos hm, Option.some_inj] at hc
      show (mkSnapshot pi a _ _).asanaCommentsCount = c
      rw [← hc, mkSnapshot, hv2]
      rfl
    · rw [if_neg hm] at hc
      exact Option.noConfusion hc

/-- C7 witness: the round-trip theorem at a concrete world, mapping list and
(empty) prior store. -/
theorem snapshot_roundtrip_witness :
    (rtMs.map (fun t => t.id)).Nodup ∧
    ((detectChanges rtWorld 1 (takeSnapshot rtWorld emptyStore rtMs) rtMs).planeChanges = [] ∧
     (detectChanges rtWorld 1 (takeSnapshot rtWorld emptyStore rtMs) rtMs).asanaChanges = []) :=
  ⟨by decide, snapshot_roundtrip rtWorld 1 emptyStore rtMs (by decide)⟩


/-! ## C1: idempotence of detectChanges -/

/-- A Plane id fetched on a second pass (against the store left by a first pass)
was already fetched on the first pass: pairs the first pass re-snapshotted carry
the live timestamp, so they only trigger when the live timestamp is missing — in
which case the old snapshot triggered too. -/
lemma modifiedPlaneIds_detect_subset (w : World) (now1 : ℤ) (store : SnapStore)
    (ms : List TaskMapping)
    (hnd : ((linkedMappings ms).map (fun t => t.id)).Nodup) :
    ∀ p, p ∈ modifiedPlaneIds w (detectChanges w now1 store ms).store (linkedMappings ms) →
      p ∈ modifiedPlaneIds w store (linkedMappings ms) := by
  intro p hp2
  rw [mem_modifiedPlaneIds_iff] at hp2
  rw [mem_modifiedPlaneIds_iff]
  obtain ⟨tm, htm, hpid, g, hg, pi, hpi, ha, s2, hs2, hmod2⟩ := hp2
  obtain ⟨a, ha1⟩ := Option.isSome_iff_exists.mp ha
  have hstore := detect_store_apply w now1 store ms hnd htm hpid hg hpi ha1
  by_cases hchg : tm.id ∈ detectChangedIds w now1 store (linkedMappings ms)
  · rw [if_pos hchg] at hstore
    rw [hstore, Option.some_inj] at hs2
    have hupd : pi.updatedAt = none := by
      cases hu : pi.updatedAt with
      | none => rfl
      | some u =>
        exfalso
        rw [← hs2] at hmod2
        simp [planeModifiedSinceSnapshot, mkSnapshot, hu] at hmod2
    obtain ⟨s0, hs0⟩ := Option.isSome_iff_exists.mp
      (mem_detectChangedIds_elim w now1 store hnd htm hchg)
    refine ⟨tm, htm, hpid, g, hg, pi, hpi, ha, s0, hs0, ?_⟩
    simp [planeModifiedSinceSnapshot, hupd]
  · rw [if_neg hchg] at hstore
    rw [hstore] at hs2
    exact ⟨tm, htm, hpid, g, hg, pi, hpi, ha, s2, hs2, hmod2⟩

/-- Per-pair core of the idempotence argument: against the store left by a first
pass, every snapshotted pair diffs to nothing on the second pass. -/
lemma detect_pair_nil_after_run (w : World) (now1 : ℤ) (store : SnapStore)
    (ms : List TaskMapping)
    (hnd : ((linkedMappings ms).map (fun t => t.id)).Nodup) :
    ∀ tm ∈ linkedMappings ms, ∀ p g pi a,
      tm.planeIssueId = some p → tm.asanaTaskGid = some g →
      planeIssueMap w p = some pi → asanaTaskMap w g = some a →
      ∀ s, (detectChanges w now1 store ms).store tm.id = some s →
      pairPlaneChanges tm pi a s
        ((detectCounts w (detectChanges w now1 store ms).store (linkedMappings ms)).1 p) = [] ∧
      pairAsanaChanges tm pi a s
        ((detectCounts w (detectChanges w now1 store ms).store (linkedMappings ms)).2 g) = [] := by
  intro tm htm p g pi a hp hg hpi ha s hs
  have hstore := detect_store_apply w now1 store ms hnd htm hp hg hpi ha
  by_cases hchg : tm.id ∈ detectChangedIds w now1 store (linkedMappings ms)
  · rw [if_pos hchg] at hstore
    rw [hstore, Option.some_inj] at hs
    obtain ⟨s0, hs0⟩ := Option.isSome_iff_exists.mp
      (mem_detectChangedIds_elim w now1 store hnd htm hchg)
    have hg1mem : g ∈ asanaIdsToCheck w store (linkedMappings ms) :=
      (mem_asanaIdsToCheck_iff w store (linkedMappings ms) g).mpr
        ⟨tm, htm, hg, p, hp, by simp [hpi], by simp [ha], by simp [hs0]⟩
    constructor
    · refine pairPlaneChanges_eq_nil (by rw [← hs]; rfl) (by rw [← hs]; simp [mkSnapshot])
        (by rw [← hs]; rfl) ?_
      intro c hc
      rw [detectCounts_fst] at hc
      by_cases hm2 : p ∈ modifiedPlaneIds w (detectChanges w now1 store ms).store
          (linkedMappings ms)
      · rw [if_pos hm2, Option.some_inj] at hc
        have hm1 := modifiedPlaneIds_detect_subset w now1 store ms hnd p hm2
        rw [← hs]
        show ((detectCounts w store (linkedMappings ms)).1 p).getD _ = c
        rw [detectCounts_fst w store (linkedMappings ms) p, if_pos hm1, ← hc]
        rfl
      · rw [if_neg hm2] at hc
        exact absurd hc (by simp)
    · refine pairAsanaChanges_eq_nil (by rw [← hs]; rfl) (by rw [← hs]; simp [mkSnapshot])
        (by rw [← hs]; rfl) ?_
      intro c hc
      rw [detectCounts_snd] at hc
      by_cases hm2 : g ∈ asanaIdsToCheck w (detectChanges w now1 store ms).store
          (linkedMappings ms)
      · rw [if_pos hm2, Option.some_inj] at hc
        rw [← hs]
        show ((detectCounts w store (linkedMappings ms)).2 g).getD _ = c
        rw [detectCounts_snd w store (linkedMappings ms) g, if_pos hg1mem, ← hc]
        rfl
      · rw [if_neg hm2] at hc
        exact absurd hc (by simp)
  · rw [if_neg hchg] at hstore
    rw [hstore] at hs
    have hplane1 : pairPlaneChanges tm pi a s
        ((detectCounts w store (linkedMappings ms)).1 p) = [] := by
      by_contra hne
      obtain ⟨c, hc⟩ := List.exists_mem_of_ne_nil _ hne
      apply hchg
      rw [detectChangedIds, List.mem_dedup, List.mem_map]
      refine ⟨c, ?_, taskMappingId_of_mem_pairPlaneChanges hc⟩
      rw [detectAllChanges, List.mem_filter]
      constructor
      · rw [List.mem_append]
        left
        rw [List.mem_flatMap]
        refine ⟨tm, htm, ?_⟩
        rw [show pairPlaneOut w (detectCounts w store (linkedMappings ms)) now1 store tm =
            pairPlaneChanges tm pi a s
              ((detectCounts w store (linkedMappings ms)).1 p) from by
          unfold pairPlaneOut
          simp only [hp, hg, hpi, ha, hs]]
        exact hc
      · simpa using field_of_mem_pairPlaneChanges hc
    have hasana1 : pairAsanaChanges tm pi a s
        ((detectCounts w store (linkedMappings ms)).2 g) = [] := by
      by_contra hne
      obtain ⟨c, hc⟩ := List.exists_mem_of_ne_nil _ hne
      apply hchg
      rw [detectChangedIds, List.mem_dedup, List.mem_map]
      refine ⟨c, ?_, taskMappingId_of_mem_pairAsanaChanges hc⟩
      rw [detectAllChanges, List.mem_filter]
      constructor
      · rw [List.mem_append]
        right
        rw [List.mem_flatMap]
        refine ⟨tm, htm, ?_⟩
        rw [show pairAsanaOut w (detectCounts w store (linkedMappings ms)) store tm =
            pairAsanaChanges tm pi a s
              ((detectCounts w store (linkedMappings ms)).2 g) from by
          unfold pairAsanaOut
          simp only [hp, hg, hpi, ha, hs]]
        exact hc
      · simpa using field_of_mem_pairAsanaChanges hc
    obtain ⟨h1, h2, h3, h4⟩ := pairPlaneChanges_nil_elim hplane1
    obtain ⟨h5, h6, h7, h8⟩ := pairAsanaChanges_nil_elim hasana1
    constructor
    · refine pairPlaneChanges_eq_nil h1 h2 h3 ?_
      intro c hc
      rw [detectCounts_fst] at hc
      by_cases hm2 : p ∈ modifiedPlaneIds w (detectChanges w now1 store ms).store
          (linkedMappings ms)
      · rw [if_pos hm2, Option.some_inj] at hc
        have hm1 := modifiedPlaneIds_detect_subset w now1 store ms hnd p hm2
        exact h4 c (by rw [detectCounts_fst, if_pos hm1, hc])
      · rw [if_neg hm2] at hc
        exact absurd hc (by simp)
    · refine pairAsanaChanges_eq_nil h5 h6 h7 ?_
      intro c hc
      rw [detectCounts_snd] at hc
      by_cases hm2 : g ∈ asanaIdsToCheck w (detectChanges w now1 store ms).store
          (linkedMappings ms)
      · rw [if_pos hm2, Option.some_inj] at hc
        have hg1mem : g ∈ asanaIdsToCheck w store (linkedMappings ms) :=
          (mem_asanaIdsToCheck_iff w store (linkedMappings ms) g).mpr
            ⟨tm, htm, hg, p, hp, by simp [hpi], by simp [ha], by simp [hs]⟩
        exact h8 c (by rw [detectCounts_snd, if_pos hg1mem, hc])
      · rw [if_neg hm2] at hc
        exact absurd hc (by simp)

/-- C1 (amended): running `detectChanges` twice with no intervening remote edit or
snapshot appends nothing to the change log on the second run, and every change the
second run still reports is a synthetic "new" entry for a pair that (still) has no
snapshot.  (The unamended claim — zero change records of any kind — fails exactly
on such no-snapshot pairs.) -/
theorem detect_idempotent (w : World) (now1 now2 : ℤ) (store : SnapStore)
    (ms : List TaskMapping) (hnd : (ms.map (fun t => t.id)).Nodup) :
    (detectChanges w now2 (detectChanges w now1 store ms).store ms).logged = [] ∧
    ∀ c ∈ (detectChanges w now2 (detectChanges w now1 store ms).store ms).planeChanges ++
      (detectChanges w now2 (detectChanges w now1 store ms).store ms).asanaChanges,
      c.field = "new" := by
  have hndl : ((linkedMappings ms).map (fun t => t.id)).Nodup :=
    hnd.sublist (List.Sublist.map _ (List.filter_sublist ms))
  have K : ∀ c ∈ (detectChanges w now2 (detectChanges w now1 store ms).store ms).planeChanges ++
      (detectChanges w now2 (detectChanges w now1 store ms).store ms).asanaChanges,
      c.field = "new" := by
    intro c hc
    rw [List.mem_append] at hc
    rcases hc with hc | hc
    · have hc1 : c ∈ (linkedMappings ms).flatMap
          (pairPlaneOut w
            (detectCounts w (detectChanges w now1 store ms).store (linkedMappings ms))
            now2 (detectChanges w now1 store ms).store) := hc
      rw [List.mem_flatMap] at hc1
      obtain ⟨tm, htm, hcm⟩ := hc1
      cases hp : tm.planeIssueId with
      | none => simp [pairPlaneOut, hp] at hcm
      | some p =>
        cases hg : tm.asanaTaskGid with
        | none => simp [pairPlaneOut, hp, hg] at hcm
        | some g =>
          cases hpi : planeIssueMap w p with
          | none => simp [pairPlaneOut, hp, hg, hpi] at hcm
          | some pi =>
            cases ha : asanaTaskMap w g with
            | none => simp [pairPlaneOut, hp, hg, hpi, ha] at hcm
            | some a =>
              cases hs : (detectChanges w now1 store ms).store tm.id with
              | none =>
                simp only [pairPlaneOut, hp, hg, hpi, ha, hs, List.mem_singleton] at hcm
                subst hcm
                rfl
              | some s =>
                simp only [pairPlaneOut, hp, hg, hpi, ha, hs] at hcm
                rw [(detect_pair_nil_after_run w now1 store ms hndl tm htm p g pi a
                  hp hg hpi ha s hs).1] at hcm
                exact absurd hcm (List.not_mem_nil c)
    · have hc1 : c ∈ (linkedMappings ms).flatMap
          (pairAsanaOut w
            (detectCounts w (detectChanges w now1 store ms).store (linkedMappings ms))
            (detectChanges w now1 store ms).store) := hc
      rw [List.mem_flatMap] at hc1
      obtain ⟨tm, htm, hcm⟩ := hc1
      cases hp : tm.planeIssueId with
      | none => simp [pairAsanaOut, hp] at hcm
      | some p =>
        cases hg : tm.asanaTaskGid with
        | none => simp [pairAsanaOut, hp, hg] at hcm
        | some g =>
          cases hpi : planeIssueMap w p with
          | none => simp [pairAsanaOut, hp, hg, hpi] at hcm
          | some pi =>
            cases ha : asanaTaskMap w g with
            | none => simp [pairAsanaOut, hp, hg, hpi, ha] at hcm
            | some a =>
              cases hs : (detectChanges w now1 store ms).store tm.id with
              | none => simp [pairAsanaOut, hp, hg, hpi, ha, hs] at hcm
              | some s =>
                simp only [pairAsanaOut, hp, hg, hpi, ha, hs] at hcm
                rw [(detect_pair_nil_after_run w now1 store ms hndl tm htm p g pi a
                  hp hg hpi ha s hs).2] at hcm
                exact absurd hcm (List.not_mem_nil c)
  refine ⟨?_, K⟩
  show detectAllChanges w now2 (detectChanges w now1 store ms).store (linkedMappings ms) = []
  rw [detectAllChanges, List.filter_eq_nil_iff]
  intro c hcm
  have := K c hcm
  simp [this]

/-- C1 (counterexample): a fully-linked pair with no snapshot still produces a
change record ("new") on the second consecutive run, so the second run does not
report zero change records. -/
theorem detect_idempotent_counterexample :
    (detectChanges rtWorld 1 (detectChanges rtWorld 0 emptyStore rtMs).store
      rtMs).planeChanges ≠ [] := by
  decide

/-- C1 witness: the amended theorem at a concrete drifted store (the first run
logs the name drift, the second run logs nothing). -/
theorem detect_idempotent_witness :
    (rtMs.map (fun t => t.id)).Nodup ∧
    (detectChanges rtWorld 1 (detectChanges rtWorld 0 rtDriftStore rtMs).store
      rtMs).logged = [] :=
  ⟨by decide, (detect_idempotent rtWorld 0 1 rtDriftStore rtMs (by decide)).1⟩

end PlaneHq
